import Mathlib

/-!
# Upload-and-redirect controller (`src/app/static/js/search.js`) and
# analyzer widget (`src/static/js/analyzer.js`)

A shallow embedding of the two browser scripts.

* JavaScript strings are lists of characters.  Every pattern and separator
  used by the scripts is made of ASCII characters, so matching on characters
  and matching on UTF-16 code units select the same substrings.
* The three regular expressions of `search.js` are values of a small regex
  type, run by a backtracking matcher with JavaScript's order of preference
  (leftmost start, greedy quantifier, longest repetition tried first).
* An event handler is a function from the page state and the outcome of its
  network request to the new page state and the effects it produced
  (navigation, `alert` calls, requests issued).  `console` output is not
  modelled.
* What the browser computes and the scripts only consume is an input of the
  handler: the text contents of the `.alert` elements found by `DOMParser` /
  `querySelectorAll`, the outcome of `fetch`, the value parsed by
  `response.json()`, and whether the `location.href` setter accepts the string
  assigned at line 46 or throws.
* The page markup is not part of the repository.  The two fields of the
  analyzer are taken to be `textarea` elements (line 63 splits the columns
  field at line breaks), whose `value` getter returns the stored text with
  newlines normalised.
-/

namespace Karhuno

/-! ## Strings -/

/-- A JavaScript string. -/
abbrev JSString := List Char

/-- White space and line terminators of ECMAScript: the class `\s` of a regular
expression and the characters removed by `String.prototype.trim`. -/
def isJSSpace (c : Char) : Bool :=
  let n := c.toNat
  n = 0x09 || n = 0x0A || n = 0x0B || n = 0x0C || n = 0x0D || n = 0x20 ||
  n = 0xA0 || n = 0x1680 || (0x2000 ≤ n && n ≤ 0x200A) ||
  n = 0x2028 || n = 0x2029 || n = 0x202F || n = 0x205F || n = 0x3000 || n = 0xFEFF

/-- The class `\d` of a regular expression without the `u`/`i` flags: `[0-9]`. -/
def isJSDigit (c : Char) : Bool :=
  let n := c.toNat
  0x30 ≤ n && n ≤ 0x39

/-- The class `[^"]`. -/
def notQuote (c : Char) : Bool := c != '"'

/-- The method `String.prototype.trim`. -/
def trim (s : JSString) : JSString :=
  ((s.dropWhile isJSSpace).reverse.dropWhile isJSSpace).reverse

/-- The test `hay.includes(needle)`. -/
def includes (needle : JSString) : JSString → Bool
  | [] => needle.isPrefixOf []
  | c :: cs => needle.isPrefixOf (c :: cs) || includes needle cs

/-! ## Regular expressions -/

/-- The pieces the patterns of `search.js` are made of. -/
inductive Atom where
  /-- A run of literal characters. -/
  | lit (cs : JSString)
  /-- A greedy `C+` for a character class `C`; `capture` tells whether it is
  wrapped in a capture group, as in `([^"]+)` and `(\d+)`. -/
  | plus (cls : Char → Bool) (capture : Bool)

/-- A pattern: a sequence of atoms. -/
abbrev Regex := List Atom

/-- Match a literal at the start of the input, returning the rest. -/
def matchLit : JSString → JSString → Option JSString
  | [], s => some s
  | _ :: _, [] => none
  | c :: cs, d :: s => if c = d then matchLit cs s else none

/-- The ways `C+` can consume a prefix of the input, in the order a greedy
quantifier tries them: longest first. Each is (consumed, rest). -/
def plusSplits (cls : Char → Bool) : JSString → List (JSString × JSString)
  | [] => []
  | c :: cs =>
    if cls c then
      (plusSplits cls cs).map (fun x => (c :: x.1, x.2)) ++ [([c], cs)]
    else []

/-- Match a pattern at the start of the input with backtracking; the result is
the list of captured groups (appended to `caps`). -/
def matchAtoms : Regex → JSString → List JSString → Option (List JSString)
  | [], _, caps => some caps
  | Atom.lit l :: r, s, caps =>
    match matchLit l s with
    | some rest => matchAtoms r rest caps
    | none => none
  | Atom.plus cls capture :: r, s, caps =>
    (plusSplits cls s).findSome? fun x =>
      matchAtoms r x.2 (if capture then caps ++ [x.1] else caps)

/-- The call `str.match(re)` for a regex without the `g` flag: the captures of the
match at the leftmost position where the pattern matches, or `none`
(JavaScript's `null`). -/
def search (re : Regex) : JSString → Option (List JSString)
  | [] => matchAtoms re [] []
  | c :: cs =>
    match matchAtoms re (c :: cs) [] with
    | some m => some m
    | none => search re cs

/-- The entry `m[1]` of a successful match. -/
def group1 (m : List JSString) : JSString := m.headD []

/-! ## `search.js` -/

def metaOpen : JSString := "<meta http-equiv=\"refresh\" content=\"0; url=".toList
def metaClose : JSString := "\">".toList

/-- Line 44: `/<meta http-equiv="refresh" content="0; url=([^"]+)">/`. -/
def metaRefreshRe : Regex :=
  [Atom.lit metaOpen, Atom.plus notQuote true, Atom.lit metaClose]

def taskStatusTitle : JSString :=
  "<title>Task Status - Karhuno Analysis System</title>".toList

def hrefOpen : JSString := "href=\"".toList
def backToClientTail : JSString := "class=\"btn btn-secondary\">Back to Client".toList

/-- Line 53: `/href="([^"]+)"\s+class="btn btn-secondary">Back to Client/`. -/
def backToClientRe : Regex :=
  [Atom.lit hrefOpen, Atom.plus notQuote true, Atom.lit ['"'],
   Atom.plus isJSSpace false, Atom.lit backToClientTail]

def taskIdOpen : JSString := "const taskId = ".toList

/-- Line 58: `/const taskId = (\d+);/`. -/
def taskIdRe : Regex :=
  [Atom.lit taskIdOpen, Atom.plus isJSDigit true, Atom.lit [';']]

def spinnerLabel : JSString :=
  "<i class=\"fas fa-spinner fa-spin me-2\"></i>Uploading...".toList

def genericErrorMessage : JSString :=
  "Ошибка обработки файла. Проверьте консоль для деталей.".toList

def uploadErrorPrefix : JSString := "Ошибка загрузки файла: ".toList

def httpErrorPrefix : JSString := "HTTP error! status: ".toList

def taskPathPrefix : JSString := "/task/".toList

/-- The `.analyze-btn` button of a form. -/
structure Button where
  innerHTML : JSString
  disabled : Bool
  deriving DecidableEq, Repr

/-- What a run of the response handler leaves behind. -/
structure Outcome where
  /-- The button after the handler. -/
  button : Button
  /-- The value assigned to `window.location.href` and accepted by the setter,
  if any. Loading the page it names is outside the model. -/
  location : Option JSString
  /-- The messages passed to `alert`, in order. -/
  alerts : List JSString
  deriving DecidableEq, Repr

/-- Lines 68-84: the flash-message check. `flashMessages` lists the
`textContent` of the elements of `doc.querySelectorAll('.alert')` in document
order. -/
def flashCheck (originalText : JSString) (flashMessages : List JSString) : Outcome :=
  let message :=
    match flashMessages with
    | first :: _ => trim first
    | [] => genericErrorMessage
  { button := { innerHTML := originalText, disabled := false }
    location := none
    alerts := [message] }

/-- The `window.location.href` setter of the browser, applied to the string of
line 46: `none` when the assignment goes through, `some message` when the
setter throws because the string does not parse as a URL, `message` being the
message of the exception. -/
abbrev HrefSetter := JSString → Option JSString

/-- Lines 40-85: the `.then(html => ...)` callback. `button` is the button as
the change handler left it. The result is `Except.error message` when the
callback throws an error with that message: the assignment of line 46 does so
when the browser rejects the URL. The path `/task/<digits>` assigned at line 62
resolves against the URL of any page served over HTTP, so that assignment does
not throw. -/
def handleHtml (originalText : JSString) (button : Button) (html : JSString)
    (flash : List JSString) (setHref : HrefSetter) : Except JSString Outcome :=
  match search metaRefreshRe html with
  | some m =>
    match setHref (group1 m) with
    | none => Except.ok { button := button, location := some (group1 m), alerts := [] }
    | some message => Except.error message
  | none =>
    if includes taskStatusTitle html then
      match search backToClientRe html with
      | some _ =>
        match search taskIdRe html with
        | some t =>
          Except.ok
            { button := button, location := some (taskPathPrefix ++ group1 t), alerts := [] }
        | none => Except.ok (flashCheck originalText flash)
      | none => Except.ok (flashCheck originalText flash)
    else Except.ok (flashCheck originalText flash)

/-- Lines 86-92: the `.catch(error => ...)` callback. -/
def handleError (originalText : JSString) (message : JSString) : Outcome :=
  { button := { innerHTML := originalText, disabled := false }
    location := none
    alerts := [uploadErrorPrefix ++ message] }

/-- A response as the script reads it. `text` is the outcome of
`response.text()`: the body, or the message of the error it rejects with. -/
structure Response where
  ok : Bool
  status : Nat
  text : Except JSString JSString

/-- The outcome of `fetch(form.action, ...)`. -/
inductive FetchResult where
  /-- The promise rejects (network failure) with an error of this message. -/
  | rejected (message : JSString)
  /-- The promise resolves with a response. -/
  | fulfilled (response : Response)

/-- Lines 34-92: what happens when the request of one change handler settles.
Whatever is thrown in the chain, by line 36, by `response.text()` or by the
callback of lines 40-85, reaches the `.catch` callback. -/
def handleSettled (originalText : JSString) (button : Button) (result : FetchResult)
    (flash : List JSString) (setHref : HrefSetter) : Outcome :=
  match result with
  | FetchResult.rejected message => handleError originalText message
  | FetchResult.fulfilled response =>
    if !response.ok then
      handleError originalText (httpErrorPrefix ++ (Nat.repr response.status).toList)
    else
      match response.text with
      | Except.error message => handleError originalText message
      | Except.ok html =>
        match handleHtml originalText button html flash setHref with
        | Except.ok outcome => outcome
        | Except.error message => handleError originalText message

/-- Lines 14-21: the synchronous part of the change handler when a file was
chosen: remember the label, show the spinner, disable the button. -/
def startUpload (button : Button) : JSString × Button :=
  (button.innerHTML, { innerHTML := spinnerLabel, disabled := true })

/-- One whole upload: a file is chosen, the request settles with `result`. -/
def upload (button : Button) (result : FetchResult) (flash : List JSString)
    (setHref : HrefSetter) : Outcome :=
  let started := startUpload button
  handleSettled started.1 started.2 result flash setHref

/-! ### The form as a state machine -/

/-- One upload form of the page. -/
structure Form where
  button : Button
  /-- The file picker of the hidden input is open (`fileInput.click()` was called). -/
  pickerOpen : Bool
  /-- The requests in flight, oldest first: for each, the `originalText` its
  change handler saved. -/
  pending : List JSString
  /-- How many times `fetch` was called. -/
  sent : Nat
  /-- The last value assigned to `window.location.href`, if any. -/
  location : Option JSString
  /-- The messages passed to `alert` so far. -/
  alerts : List JSString
  deriving DecidableEq, Repr

/-- What can happen to a form. -/
inductive Event where
  /-- The user clicks the `.analyze-btn` button. -/
  | click
  /-- A `change` event reaches the `.cleaned-file-input`, with `files.length = files`. -/
  | change (files : Nat)
  /-- The request at position `i` of `pending` settles. -/
  | settle (i : Nat) (result : FetchResult) (flash : List JSString) (setHref : HrefSetter)

/-- One event. Lines 3-9 for `click` (a disabled button dispatches no click
event), lines 13-33 for `change`, lines 34-92 for `settle`. -/
def step (f : Form) : Event → Form
  | Event.click =>
    if f.button.disabled then f else { f with pickerOpen := true }
  | Event.change files =>
    if files > 0 then
      let started := startUpload f.button
      { f with
        pickerOpen := false
        button := started.2
        pending := f.pending ++ [started.1]
        sent := f.sent + 1 }
    else { f with pickerOpen := false }
  | Event.settle i result flash setHref =>
    match f.pending.get? i with
    | none => f
    | some originalText =>
      let out := handleSettled originalText f.button result flash setHref
      { f with
        button := out.button
        pending := f.pending.eraseIdx i
        location := match out.location with
          | some url => some url
          | none => f.location
        alerts := f.alerts ++ out.alerts }

/-- A sequence of events. -/
def run (f : Form) : List Event → Form
  | [] => f
  | e :: es => run (step f e) es

/-- A form after page load: button enabled, nothing in flight. -/
def idle (label : JSString) : Form :=
  { button := { innerHTML := label, disabled := false }
    pickerOpen := false, pending := [], sent := 0, location := none, alerts := [] }

/-- Every file selection of the sequence is made in the picker that a click on
the button opened. -/
def viaPicker (f : Form) : List Event → Bool
  | [] => true
  | Event.change files :: es => f.pickerOpen && viaPicker (step f (Event.change files)) es
  | e :: es => viaPicker (step f e) es

/-! ### The markers of a response body, as the specification words them -/

/-- Right after `pre`, the body has the tag
`<meta http-equiv="refresh" content="0; url=X">`, `X` non-empty and free of
double quotes. -/
def MetaRefreshAt (html pre X : JSString) : Prop :=
  X ≠ [] ∧ '"' ∉ X ∧ ∃ post, html = pre ++ metaOpen ++ X ++ metaClose ++ post

/-- The body has no meta-refresh tag. -/
def NoMetaRefresh (html : JSString) : Prop := ∀ pre X, ¬ MetaRefreshAt html pre X

/-- Right after `pre`, the body has the assignment `const taskId = N;`, `N` a
non-empty string of decimal digits. -/
def TaskIdAt (html pre N : JSString) : Prop :=
  N ≠ [] ∧ (∀ c ∈ N, c.isDigit = true) ∧ ∃ post, html = pre ++ taskIdOpen ++ N ++ [';'] ++ post

/-- The body has a "Back to Client" link: `href="U"`, white space, then
`class="btn btn-secondary">Back to Client`, with `U` non-empty and free of
double quotes. -/
def HasBackToClientLink (html : JSString) : Prop :=
  ∃ pre U ws post, U ≠ [] ∧ '"' ∉ U ∧ ws ≠ [] ∧ (∀ c ∈ ws, isJSSpace c = true) ∧
    html = pre ++ hrefOpen ++ U ++ ['"'] ++ ws ++ backToClientTail ++ post

/-- The body carries the literal title of the task-status page. -/
def HasTaskStatusTitle (html : JSString) : Prop := taskStatusTitle <:+: html

/-- The body has an assignment `const taskId = <digits>;` somewhere. -/
def HasTaskId (html : JSString) : Prop := ∃ pre N, TaskIdAt html pre N

/-- A successfully received response with this body. -/
def okResponse (status : Nat) (html : JSString) : FetchResult :=
  FetchResult.fulfilled { ok := true, status := status, text := Except.ok html }

/-! ## `analyzer.js` -/

/-- A JavaScript number, known by the two things the script can observe of it:
whether it is falsy (`0`, `-0`) and the string `ToString` gives for it. -/
structure JSNumber where
  falsy : Bool
  text : JSString

/-- A JavaScript value as `JSON.parse` builds it, and `undefined`, which reading
a missing property gives. The properties of an object are listed with distinct
keys. -/
inductive JSValue where
  | undefined
  | null
  | bool (b : Bool)
  | number (n : JSNumber)
  | string (s : JSString)
  | array (items : List JSValue)
  | object (props : List (JSString × JSValue))

/-- The method `Array.prototype.join` on strings already converted: `sep` between
consecutive elements. -/
def joinStrings (sep : JSString) : List JSString → JSString
  | [] => []
  | [x] => x
  | x :: y :: rest => x ++ sep ++ joinStrings sep (y :: rest)

mutual
/-- The abstract operation `ToString`. -/
def toStr : JSValue → JSString
  | JSValue.undefined => "undefined".toList
  | JSValue.null => "null".toList
  | JSValue.bool b => if b then "true".toList else "false".toList
  | JSValue.number n => n.text
  | JSValue.string s => s
  | JSValue.array items => joinStrings [','] (itemStrings items)
  | JSValue.object _ => "[object Object]".toList
/-- The strings `Array.prototype.join` puts together: the empty string for
`undefined` and `null`, `ToString` of the element otherwise. -/
def itemStrings : List JSValue → List JSString
  | [] => []
  | v :: vs =>
    (match v with
     | JSValue.undefined => []
     | JSValue.null => []
     | w => toStr w) :: itemStrings vs
end

/-- Truthiness: `!v` is false. -/
def truthy : JSValue → Bool
  | JSValue.undefined => false
  | JSValue.null => false
  | JSValue.bool b => b
  | JSValue.number n => !n.falsy
  | JSValue.string s => !s.isEmpty
  | JSValue.array _ => true
  | JSValue.object _ => true

/-- The property read `v.key` for the keys `prompt` and `columns`, which no prototype defines:
`none` is the `TypeError` of reading a property of `undefined` or `null`. -/
def getProp (v : JSValue) (key : JSString) : Option JSValue :=
  match v with
  | JSValue.undefined => none
  | JSValue.null => none
  | JSValue.object props =>
    match props.lookup key with
    | some w => some w
    | none => some JSValue.undefined
  | _ => some JSValue.undefined

/-- The call `v.join(sep)`: `none` is the `TypeError` raised when `v` is not an array
(reading `join` of `undefined`/`null`, or calling something that is not a
function). -/
def callJoin (v : JSValue) (sep : JSString) : Option JSString :=
  match v with
  | JSValue.array items => some (joinStrings sep (itemStrings items))
  | _ => none

/-- The string stored by `input.value = v`: `null` gives the empty string,
everything else its `ToString`. -/
def valueOfAssigned : JSValue → JSString
  | JSValue.null => []
  | v => toStr v

/-- The call `s.split(sep)` for a separator of one character. -/
def split (sep : Char) : JSString → List JSString
  | [] => [[]]
  | c :: cs =>
    if c = sep then [] :: split sep cs
    else
      match split sep cs with
      | seg :: segs => (c :: seg) :: segs
      | [] => [[c]]

/-- Line 63: `this.columnsInput.value.split('\n').filter(Boolean)`. -/
def currentColumns (value : JSString) : List JSString :=
  (split '\n' value).filter (fun seg => !seg.isEmpty)

/-- The `value` getter of a `textarea`: the text stored in the field with
newlines normalised, every CR LF pair and every other CR becoming one LF. -/
def textareaValue : JSString → JSString
  | [] => []
  | c :: rest =>
    if c = '\r' then
      match rest with
      | [] => ['\n']
      | d :: rest2 =>
        if d = '\n' then '\n' :: textareaValue rest2 else '\n' :: textareaValue (d :: rest2)
    else c :: textareaValue rest

/-- The session of the analyzer page. -/
structure Analyzer where
  tableData : JSValue
  /-- The text stored in `promptInput`: what the user typed or line 72 assigned. -/
  promptInput : JSString
  /-- The text stored in `columnsInput`: what the user typed or line 73 assigned. -/
  columnsInput : JSString
  /-- The `disabled` flag of `generateBtn`. -/
  generateBtnDisabled : Bool
  /-- The `disabled` flag of `analyzeBtn`. -/
  analyzeBtnDisabled : Bool

/-- A request the analyzer sends. -/
inductive Request where
  /-- The request `POST /analyzer/upload` with the chosen file. -/
  | upload
  /-- The request `POST /analyzer/generate_prompt` with this JSON body. -/
  | generatePrompt (current_prompt : JSString) (current_columns : List JSString)
      (table_data : JSValue)

/-- What a handler of the analyzer did besides changing the session. -/
structure Effects where
  requests : List Request
  alerts : List JSString

/-- The outcome of a `fetch` whose body is read with `response.json()`. -/
inductive JsonFetch where
  /-- The promise of `fetch` rejects. -/
  | rejected
  /-- A response arrives; `json` is `none` when `response.json()` rejects. -/
  | fulfilled (ok : Bool) (json : Option JSValue)

namespace Analyzer

/-- Lines 2-10: the session the constructor builds around the page's fields. -/
def initial (prompt columns : JSString) (generateBtnDisabled analyzeBtnDisabled : Bool) : Analyzer :=
  { tableData := JSValue.null, promptInput := prompt, columnsInput := columns
    generateBtnDisabled := generateBtnDisabled, analyzeBtnDisabled := analyzeBtnDisabled }

/-- Lines 22-46: the `change` handler of `fileUpload`; `file` tells whether
`e.target.files[0]` exists. -/
def fileUploadChange (a : Analyzer) (file : Bool) (net : JsonFetch) : Analyzer × Effects :=
  if !file then (a, { requests := [], alerts := [] })
  else
    let failed : Analyzer × Effects :=
      (a, { requests := [Request.upload], alerts := ["Failed to upload file".toList] })
    match net with
    | JsonFetch.rejected => failed
    | JsonFetch.fulfilled ok json =>
      if !ok then failed
      else
        match json with
        | none => failed
        | some data =>
          ({ a with tableData := data, generateBtnDisabled := false, analyzeBtnDisabled := false },
           { requests := [Request.upload], alerts := [] })

/-- Lines 49-79: the `click` handler of `generateBtn`. -/
def generateClick (a : Analyzer) (net : JsonFetch) : Analyzer × Effects :=
  if !truthy a.tableData then
    (a, { requests := [], alerts := ["Please upload data first".toList] })
  else
    let request :=
      Request.generatePrompt (textareaValue a.promptInput)
        (currentColumns (textareaValue a.columnsInput)) a.tableData
    let failed (b : Analyzer) : Analyzer × Effects :=
      (b, { requests := [request], alerts := ["Failed to generate prompt".toList] })
    match net with
    | JsonFetch.rejected => failed a
    | JsonFetch.fulfilled ok json =>
      if !ok then failed a
      else
        match json with
        | none => failed a
        | some result =>
          match getProp result "prompt".toList with
          | none => failed a
          | some prompt =>
            let a1 := { a with promptInput := valueOfAssigned prompt }
            match getProp result "columns".toList with
            | none => failed a1
            | some columns =>
              match callJoin columns ['\n'] with
              | none => failed a1
              | some text =>
                ({ a1 with columnsInput := text }, { requests := [request], alerts := [] })

/-- What can happen on the analyzer page. -/
inductive Event where
  /-- A `change` event of `fileUpload` and the outcome of its request. -/
  | fileChange (file : Bool) (net : JsonFetch)
  /-- A press of Generate and the outcome of its request. -/
  | generate (net : JsonFetch)
  /-- The user edits the prompt field. -/
  | editPrompt (text : JSString)
  /-- The user edits the columns field. -/
  | editColumns (text : JSString)

/-- The event is an upload that succeeded: a file, a success status, a body
that parses. -/
def Event.uploadSucceeded : Event → Bool
  | Event.fileChange true (JsonFetch.fulfilled true (some _)) => true
  | _ => false

/-- One event. -/
def step (a : Analyzer) : Event → Analyzer
  | Event.fileChange file net => (fileUploadChange a file net).1
  | Event.generate net => (generateClick a net).1
  | Event.editPrompt text => { a with promptInput := text }
  | Event.editColumns text => { a with columnsInput := text }

/-- A sequence of events. -/
def run (a : Analyzer) : List Event → Analyzer
  | [] => a
  | e :: es => run (step a e) es

end Analyzer

/-- The request of a Generate press fails before a value is parsed: network
failure, non-success status, or a body that is not JSON. -/
def failsBeforeParse : JsonFetch → Bool
  | JsonFetch.rejected => true
  | JsonFetch.fulfilled ok json => !ok || json.isNone

/-- The parsed response has an array under `columns`. -/
def hasColumnsArray : JSValue → Bool
  | JSValue.object props =>
    match props.lookup "columns".toList with
    | some (JSValue.array _) => true
    | _ => false
  | _ => false

/-- The value is a string. -/
def isString : JSValue → Bool
  | JSValue.string _ => true
  | _ => false

/-- The shape the specification gives for the response of the generation
endpoint: an object `{prompt: string, columns: array of string}`. -/
def expectedShape : JSValue → Bool
  | JSValue.object props =>
    (match props.lookup "prompt".toList with
     | some (JSValue.string _) => true
     | _ => false) &&
    (match props.lookup "columns".toList with
     | some (JSValue.array items) => items.all isString
     | _ => false)
  | _ => false

/-- A session with uploaded table data. -/
def sampleSession : Analyzer :=
  { tableData := JSValue.array [JSValue.object [("name".toList, JSValue.string "x".toList)]]
    promptInput := "old prompt".toList
    columnsInput := "a\nb".toList
    generateBtnDisabled := false
    analyzeBtnDisabled := false }

/-- The value of `{"prompt": "new prompt"}`: the `columns` are missing. -/
def valueWithoutColumns : JSValue :=
  JSValue.object [("prompt".toList, JSValue.string "new prompt".toList)]

/-- A response with the body `{"prompt": "new prompt"}`. -/
def responseWithoutColumns : JsonFetch := JsonFetch.fulfilled true (some valueWithoutColumns)

/-- The properties of `{"columns": ["c"]}`: the `prompt` is missing. -/
def propsWithoutPrompt : List (JSString × JSValue) :=
  [("columns".toList, JSValue.array [JSValue.string "c".toList])]

/-- A response with the body `{"columns": ["c"]}`. -/
def responseWithoutPrompt : JsonFetch :=
  JsonFetch.fulfilled true (some (JSValue.object propsWithoutPrompt))

/-- The properties of `{"prompt": "new prompt", "columns": ["name", "e mail"]}`. -/
def propsOfExpectedShape : List (JSString × JSValue) :=
  [("prompt".toList, JSValue.string "new prompt".toList),
   ("columns".toList,
    JSValue.array (["name".toList, "e mail".toList].map JSValue.string))]

/-- A response whose single column name holds a carriage return. -/
def responseWithCR : JsonFetch :=
  JsonFetch.fulfilled true
    (some (JSValue.object
      [("prompt".toList, JSValue.string "p".toList),
       ("columns".toList, JSValue.array [JSValue.string "a\rb".toList])]))

/-! ### Sample response bodies -/

/-- A body whose meta-refresh tag names a string that does not parse as a URL:
the host holds a space. -/
def badUrlBody : JSString :=
  ("<html><head>" ++
   "<meta http-equiv=\"refresh\" content=\"0; url=http://exa mple.org/x\">" ++
   "</head></html>").toList

/-- A browser that rejects `http://exa mple.org/x` and accepts every other
string; the message is the one of the exception thrown by the setter. -/
def rejectBadUrl : HrefSetter := fun url =>
  if url = "http://exa mple.org/x".toList then
    some "Failed to set the 'href' property on 'Location': 'http://exa mple.org/x' is not a valid URL.".toList
  else none

/-- A browser that accepts every string assigned to `location.href`. -/
def acceptAll : HrefSetter := fun _ => none

/-- A task-status page with the identifier and a "Back to Client" link whose
`class` attribute comes before its `href`. -/
def statusBodyClassFirst : JSString :=
  ("<html><head><title>Task Status - Karhuno Analysis System</title></head><body>" ++
   "<a class=\"btn btn-secondary\" href=\"/client/7\">Back to Client</a>" ++
   "<script>const taskId = 42;</script></body></html>").toList

/-- The anchor of `statusBodyClassFirst`. -/
def classFirstLink : JSString :=
  "<a class=\"btn btn-secondary\" href=\"/client/7\">Back to Client</a>".toList

/-- A body with two meta-refresh tags and every other marker. -/
def redirectBody : JSString :=
  ("<html><head>" ++
   "<meta http-equiv=\"refresh\" content=\"0; url=/client/7\">" ++
   "<title>Task Status - Karhuno Analysis System</title>" ++
   "<a href=\"/client/9\" class=\"btn btn-secondary\">Back to Client</a>" ++
   "<script>const taskId = 42;</script><div class=\"alert\">No</div>" ++
   "<meta http-equiv=\"refresh\" content=\"0; url=/other\">").toList

/-- A task-status page with the link and the identifier. -/
def statusBody : JSString :=
  ("<html><head><title>Task Status - Karhuno Analysis System</title></head><body>" ++
   "<a href=\"/client/7\" class=\"btn btn-secondary\">Back to Client</a>" ++
   "<script>const taskId = 42;</script></body></html>").toList

/-- A task-status page with the identifier but without the link. -/
def statusBodyNoLink : JSString :=
  ("<html><head><title>Task Status - Karhuno Analysis System</title></head><body>" ++
   "<script>const taskId = 42;</script></body></html>").toList

/-- A page with one flash message. -/
def flashBody : JSString :=
  "<html><body><div class=\"alert alert-danger\"> File too large </div></body></html>".toList

/-- The text content of the `.alert` element of `flashBody`. -/
def flashBodyAlerts : List JSString := [" File too large ".toList]

/-- The button of a form before any upload. -/
def sampleButton : Button := { innerHTML := "Analyze".toList, disabled := false }

/-! # Theorems -/

/-! ## The matcher: generic facts -/

theorem matchLit_iff (l s r : JSString) : matchLit l s = some r ↔ s = l ++ r := by
  induction l generalizing s with
  | nil =>
    simp only [matchLit, List.nil_append, Option.some.injEq]
  | cons c cs ih =>
    cases s with
    | nil => simp [matchLit]
    | cons d s =>
      simp only [matchLit, List.cons_append, List.cons.injEq]
      by_cases h : c = d
      · subst h; simp [ih]
      · simp [h, eq_comm]

theorem takeWhile_run (p : Char → Bool) (X : JSString) (q : Char) (r : JSString)
    (hX : ∀ c ∈ X, p c = true) (hq : p q = false) :
    (X ++ q :: r).takeWhile p = X ∧ (X ++ q :: r).dropWhile p = q :: r := by
  induction X with
  | nil => simp [List.takeWhile, List.dropWhile, hq]
  | cons c cs ih =>
    have hc : p c = true := hX c (List.mem_cons_self _ _)
    have := ih (fun d hd => hX d (List.mem_cons_of_mem _ hd))
    simp [List.takeWhile, List.dropWhile, hc, this.1, this.2]

theorem dropWhile_of_takeWhile_nil (p : Char → Bool) (s : JSString)
    (h : s.takeWhile p = []) : s.dropWhile p = s := by
  have := List.takeWhile_append_dropWhile p s
  rw [h] at this
  simpa using this

theorem findSome_plusSplits {α : Type} (p : Char → Bool) (s : JSString) :
    ∀ (g : JSString → JSString → Option α),
      (∀ t c cs, p c = true → g t (c :: cs) = none) →
      (plusSplits p s).findSome? (fun x => g x.1 x.2) =
        if s.takeWhile p = [] then none else g (s.takeWhile p) (s.dropWhile p) := by
  induction s with
  | nil => intro g _; simp [plusSplits]
  | cons c cs ih =>
    intro g hg
    by_cases hc : p c = true
    · have ih' := ih (fun t r => g (c :: t) r) (fun t d ds hd => hg (c :: t) d ds hd)
      simp only [plusSplits, hc, if_true, List.findSome?_append, List.findSome?_map,
        Function.comp_def, List.takeWhile_cons, List.dropWhile_cons]
      rw [ih']
      by_cases ht : cs.takeWhile p = []
      · simp [ht, dropWhile_of_takeWhile_nil p cs ht, List.findSome?]
        cases g [c] cs <;> rfl
      · have hne : g [c] cs = none := by
          cases cs with
          | nil => simp at ht
          | cons d ds =>
            by_cases hd : p d = true
            · exact hg _ d ds hd
            · simp [List.takeWhile, hd] at ht
        simp [ht, hne, List.findSome?]
    · simp [plusSplits, hc, List.takeWhile]

theorem matchAtoms_plus_lit (p : Char → Bool) (capture : Bool) (q : Char) (Q : JSString)
    (r : Regex) (s : JSString) (caps : List JSString) (hq : p q = false) :
    matchAtoms (Atom.plus p capture :: Atom.lit (q :: Q) :: r) s caps =
      if s.takeWhile p = [] then none
      else matchAtoms (Atom.lit (q :: Q) :: r) (s.dropWhile p)
        (if capture then caps ++ [s.takeWhile p] else caps) := by
  have h := findSome_plusSplits p s
    (fun t rest => matchAtoms (Atom.lit (q :: Q) :: r) rest
      (if capture then caps ++ [t] else caps))
    (by
      intro t c cs hc
      have hne : ¬ q = c := by
        intro h; subst h; simp [hq] at hc
      simp [matchAtoms, matchLit, hne])
  simpa [matchAtoms] using h

/-- A pattern `P(C+)qQ` whose class `C` excludes the character `q` matches at
the start of `s` exactly when `s` starts with `P`, a non-empty run of `C` and
`qQ`; the capture is that run. -/
theorem matchAtoms_capture_iff (P : JSString) (p : Char → Bool) (q : Char) (Q : JSString)
    (hq : p q = false) (s : JSString) (m : List JSString) :
    matchAtoms [Atom.lit P, Atom.plus p true, Atom.lit (q :: Q)] s [] = some m ↔
      ∃ X post, m = [X] ∧ X ≠ [] ∧ (∀ c ∈ X, p c = true) ∧ s = P ++ X ++ (q :: Q) ++ post := by
  constructor
  · intro h
    simp only [matchAtoms] at h
    cases h1 : matchLit P s with
    | none => simp [h1] at h
    | some r1 =>
      rw [h1] at h
      simp only at h
      have h' := matchAtoms_plus_lit p true q Q [] r1 [] hq
      simp only [matchAtoms] at h'
      rw [h'] at h
      by_cases ht : r1.takeWhile p = []
      · simp [ht] at h
      · simp only [ht, if_false] at h
        cases h2 : matchLit (q :: Q) (r1.dropWhile p) with
        | none => simp [h2] at h
        | some post =>
          rw [h2] at h
          simp only [if_true, List.nil_append, Option.some.injEq] at h
          refine ⟨r1.takeWhile p, post, h.symm, ht, ?_, ?_⟩
          · intro c hc
            exact (List.mem_takeWhile_imp hc)
          · have e1 := (matchLit_iff P s r1).1 h1
            have e2 := (matchLit_iff (q :: Q) _ post).1 h2
            have e3 := List.takeWhile_append_dropWhile p r1
            rw [e1, List.append_assoc, List.append_assoc, ← e2, e3]
  · rintro ⟨X, post, rfl, hne, hX, rfl⟩
    have h1 : matchLit P (P ++ X ++ (q :: Q) ++ post) = some (X ++ (q :: (Q ++ post))) :=
      (matchLit_iff _ _ _).2 (by simp)
    have h' := matchAtoms_plus_lit p true q Q [] (X ++ (q :: (Q ++ post))) [] hq
    have hr := takeWhile_run p X q (Q ++ post) hX hq
    simp only [matchAtoms] at h'
    simp only [matchAtoms, h1]
    rw [h', hr.1, hr.2]
    have h2 : matchLit (q :: Q) (q :: (Q ++ post)) = some post :=
      (matchLit_iff _ _ _).2 (by simp)
    simp [hne, h2]

theorem search_eq_none_iff (re : Regex) (s : JSString) :
    search re s = none ↔ ∀ pre rest, s = pre ++ rest → matchAtoms re rest [] = none := by
  induction s with
  | nil =>
    simp only [search]
    constructor
    · intro h pre rest e
      have := List.append_eq_nil.1 e.symm
      rw [this.2]; exact h
    · intro h; exact h [] [] rfl
  | cons c cs ih =>
    simp only [search]
    constructor
    · intro h pre rest e
      cases hm : matchAtoms re (c :: cs) [] with
      | some m => rw [hm] at h; simp at h
      | none =>
        rw [hm] at h
        cases pre with
        | nil => simp at e; rw [← e]; exact hm
        | cons d ds =>
          simp at e
          exact (ih.1 h) ds rest e.2
    · intro h
      rw [h [] (c :: cs) rfl]
      exact ih.2 (fun pre rest e => h (c :: pre) rest (by simp [e]))

/-- The function `search` returns the captures of the match at the leftmost position where
the pattern matches. -/
theorem search_eq_some_iff (re : Regex) (s : JSString) (m : List JSString) :
    search re s = some m ↔
      ∃ pre rest, s = pre ++ rest ∧ matchAtoms re rest [] = some m ∧
        ∀ pre' rest', s = pre' ++ rest' → pre'.length < pre.length →
          matchAtoms re rest' [] = none := by
  induction s with
  | nil =>
    simp only [search]
    constructor
    · intro h
      exact ⟨[], [], rfl, h, fun _ _ _ hl => by simp at hl⟩
    · rintro ⟨pre, rest, e, h, _⟩
      have := List.append_eq_nil.1 e.symm
      rw [this.2] at h; exact h
  | cons c cs ih =>
    simp only [search]
    cases hm : matchAtoms re (c :: cs) [] with
    | some m0 =>
      simp only [Option.some.injEq]
      constructor
      · intro h
        subst h
        exact ⟨[], c :: cs, rfl, hm, fun _ _ _ hl => by simp at hl⟩
      · rintro ⟨pre, rest, e, h, hmin⟩
        cases pre with
        | nil =>
          simp at e; rw [← e, hm] at h; simpa using h
        | cons d ds =>
          have := hmin [] (c :: cs) rfl (by simp)
          rw [hm] at this; simp at this
    | none =>
      simp only
      rw [ih]
      constructor
      · rintro ⟨pre, rest, e, h, hmin⟩
        refine ⟨c :: pre, rest, by simp [e], h, ?_⟩
        intro pre' rest' e' hl
        cases pre' with
        | nil => simp at e'; rw [← e']; exact hm
        | cons d ds =>
          simp at e'
          exact hmin ds rest' e'.2 (by simpa using hl)
      · rintro ⟨pre, rest, e, h, hmin⟩
        cases pre with
        | nil => simp at e; rw [← e, hm] at h; simp at h
        | cons d ds =>
          simp at e
          refine ⟨ds, rest, e.2, h, ?_⟩
          intro pre' rest' e' hl
          exact hmin (c :: pre') rest' (by simp [e', e.1]) (by simpa using hl)

theorem matchAtoms_lit_iff (l : JSString) (r : Regex) (s : JSString)
    (caps m : List JSString) :
    matchAtoms (Atom.lit l :: r) s caps = some m ↔
      ∃ rest, s = l ++ rest ∧ matchAtoms r rest caps = some m := by
  simp only [matchAtoms]
  cases h : matchLit l s with
  | none =>
    constructor
    · intro h'; simp at h'
    · rintro ⟨rest, e, _⟩
      rw [(matchLit_iff l s rest).2 e] at h
      simp at h
  | some rest =>
    have e := (matchLit_iff l s rest).1 h
    constructor
    · intro hm; exact ⟨rest, e, hm⟩
    · rintro ⟨rest', e', hm⟩
      rw [e] at e'
      rw [List.append_cancel_left e']
      exact hm

theorem matchAtoms_plus_lit_iff (p : Char → Bool) (capture : Bool) (q : Char) (Q : JSString)
    (r : Regex) (s : JSString) (caps m : List JSString) (hq : p q = false) :
    matchAtoms (Atom.plus p capture :: Atom.lit (q :: Q) :: r) s caps = some m ↔
      ∃ X rest, X ≠ [] ∧ (∀ c ∈ X, p c = true) ∧ s = X ++ (q :: Q) ++ rest ∧
        matchAtoms r rest (if capture then caps ++ [X] else caps) = some m := by
  rw [matchAtoms_plus_lit p capture q Q r s caps hq]
  constructor
  · intro h
    by_cases ht : s.takeWhile p = []
    · simp [ht] at h
    · simp only [ht, if_false] at h
      obtain ⟨rest, e, hm⟩ := (matchAtoms_lit_iff _ _ _ _ _).1 h
      refine ⟨s.takeWhile p, rest, ht, fun c hc => List.mem_takeWhile_imp hc, ?_, hm⟩
      have e3 := List.takeWhile_append_dropWhile p s
      rw [List.append_assoc, ← e, e3]
  · rintro ⟨X, rest, hne, hX, rfl, hm⟩
    have hr := takeWhile_run p X q (Q ++ rest) hX hq
    simp only [List.append_assoc, List.cons_append] at hr ⊢
    rw [hr.1, hr.2]
    simp only [hne, if_false]
    exact (matchAtoms_lit_iff _ _ _ _ _).2 ⟨rest, by simp, hm⟩

theorem isJSDigit_eq (c : Char) : isJSDigit c = c.isDigit := by
  simp only [isJSDigit, Char.isDigit, Char.toNat, ge_iff_le, UInt32.le_def]
  rfl

theorem notQuote_all_iff (X : JSString) : (∀ c ∈ X, notQuote c = true) ↔ '"' ∉ X := by
  simp only [notQuote, bne_iff_ne, ne_eq]
  constructor
  · intro h hm; exact h _ hm rfl
  · intro h c hc e; exact h (e ▸ hc)

theorem metaClose_eq : metaClose = '"' :: ['>'] := by decide

theorem backToClientTail_eq :
    backToClientTail = 'c' :: "lass=\"btn btn-secondary\">Back to Client".toList := by decide

theorem includes_iff (needle hay : JSString) : includes needle hay = true ↔ needle <:+: hay := by
  induction hay with
  | nil =>
    simp only [includes, List.isPrefixOf_iff_prefix, List.prefix_nil, List.infix_nil]
  | cons c cs ih =>
    simp only [includes, Bool.or_eq_true, List.isPrefixOf_iff_prefix, ih, List.infix_cons_iff]

/-- The leftmost occurrence of `P`, a non-empty run of the class and `qQ` is the
one `search` reports. -/
theorem search_capture_first (P : JSString) (p : Char → Bool) (q : Char) (Q : JSString)
    (hq : p q = false) (html pre X post : JSString)
    (hne : X ≠ []) (hX : ∀ c ∈ X, p c = true)
    (e : html = pre ++ P ++ X ++ (q :: Q) ++ post)
    (hfirst : ∀ pre' X' post', X' ≠ [] → (∀ c ∈ X', p c = true) →
      html = pre' ++ P ++ X' ++ (q :: Q) ++ post' → pre.length ≤ pre'.length) :
    search [Atom.lit P, Atom.plus p true, Atom.lit (q :: Q)] html = some [X] := by
  rw [search_eq_some_iff]
  refine ⟨pre, P ++ X ++ (q :: Q) ++ post, by simp [e], ?_, ?_⟩
  · exact (matchAtoms_capture_iff P p q Q hq _ _).2 ⟨X, post, rfl, hne, hX, rfl⟩
  · intro pre' rest' e' hl
    cases hm : matchAtoms [Atom.lit P, Atom.plus p true, Atom.lit (q :: Q)] rest' [] with
    | none => rfl
    | some m =>
      obtain ⟨X', post', _, hne', hX', e2⟩ := (matchAtoms_capture_iff P p q Q hq _ _).1 hm
      have := hfirst pre' X' post' hne' hX' (by rw [e', e2]; simp)
      omega

theorem search_capture_none_iff (P : JSString) (p : Char → Bool) (q : Char) (Q : JSString)
    (hq : p q = false) (html : JSString) :
    search [Atom.lit P, Atom.plus p true, Atom.lit (q :: Q)] html = none ↔
      ∀ pre X post, X ≠ [] → (∀ c ∈ X, p c = true) →
        html ≠ pre ++ P ++ X ++ (q :: Q) ++ post := by
  rw [search_eq_none_iff]
  constructor
  · intro h pre X post hne hX e
    have := h pre (P ++ X ++ (q :: Q) ++ post) (by simp [e])
    rw [(matchAtoms_capture_iff P p q Q hq _ _).2 ⟨X, post, rfl, hne, hX, rfl⟩] at this
    simp at this
  · intro h pre rest e
    cases hm : matchAtoms [Atom.lit P, Atom.plus p true, Atom.lit (q :: Q)] rest [] with
    | none => rfl
    | some m =>
      obtain ⟨X, post, _, hne, hX, e2⟩ := (matchAtoms_capture_iff P p q Q hq _ _).1 hm
      exact absurd (by rw [e, e2]; simp) (h pre X post hne hX)

theorem search_capture_some (P : JSString) (p : Char → Bool) (q : Char) (Q : JSString)
    (hq : p q = false) (html : JSString) (m : List JSString)
    (h : search [Atom.lit P, Atom.plus p true, Atom.lit (q :: Q)] html = some m) :
    ∃ pre X post, m = [X] ∧ X ≠ [] ∧ (∀ c ∈ X, p c = true) ∧
      html = pre ++ P ++ X ++ (q :: Q) ++ post ∧
      ∀ pre' X' post', X' ≠ [] → (∀ c ∈ X', p c = true) →
        html = pre' ++ P ++ X' ++ (q :: Q) ++ post' → pre.length ≤ pre'.length := by
  obtain ⟨pre, rest, e, hm, hmin⟩ := (search_eq_some_iff _ _ _).1 h
  obtain ⟨X, post, em, hne, hX, e2⟩ := (matchAtoms_capture_iff P p q Q hq _ _).1 hm
  refine ⟨pre, X, post, em, hne, hX, by rw [e, e2]; simp, ?_⟩
  intro pre' X' post' hne' hX' e'
  by_contra hlt
  have := hmin pre' (P ++ X' ++ (q :: Q) ++ post') (by simp [e']) (by omega)
  rw [(matchAtoms_capture_iff P p q Q hq _ _).2 ⟨X', post', rfl, hne', hX', rfl⟩] at this
  simp at this

/-! ## The markers and the three patterns -/

theorem search_meta_first (html pre X : JSString) (h : MetaRefreshAt html pre X)
    (hfirst : ∀ pre' X', MetaRefreshAt html pre' X' → pre.length ≤ pre'.length) :
    search metaRefreshRe html = some [X] := by
  obtain ⟨hne, hq, post, e⟩ := h
  unfold metaRefreshRe
  rw [metaClose_eq] at e ⊢
  refine search_capture_first metaOpen notQuote '"' ['>'] (by decide) html pre X post hne
    ((notQuote_all_iff X).2 hq) e ?_
  intro pre' X' post' hne' hX' e'
  exact hfirst pre' X' ⟨hne', (notQuote_all_iff X').1 hX', post', by rw [metaClose_eq]; exact e'⟩

theorem search_meta_none_iff (html : JSString) :
    search metaRefreshRe html = none ↔ NoMetaRefresh html := by
  unfold metaRefreshRe NoMetaRefresh MetaRefreshAt
  rw [metaClose_eq, search_capture_none_iff metaOpen notQuote '"' ['>'] (by decide)]
  constructor
  · rintro h pre X ⟨hne, hq, post, e⟩
    exact h pre X post hne ((notQuote_all_iff X).2 hq) e
  · intro h pre X post hne hX e
    exact h pre X ⟨hne, (notQuote_all_iff X).1 hX, post, e⟩

theorem digits_all_iff (N : JSString) :
    (∀ c ∈ N, isJSDigit c = true) ↔ ∀ c ∈ N, c.isDigit = true := by
  simp only [isJSDigit_eq]

theorem search_taskId_first (html pre N : JSString) (h : TaskIdAt html pre N)
    (hfirst : ∀ pre' N', TaskIdAt html pre' N' → pre.length ≤ pre'.length) :
    search taskIdRe html = some [N] := by
  obtain ⟨hne, hd, post, e⟩ := h
  unfold taskIdRe
  refine search_capture_first taskIdOpen isJSDigit ';' [] (by decide) html pre N post hne
    ((digits_all_iff N).2 hd) e ?_
  intro pre' N' post' hne' hN' e'
  exact hfirst pre' N' ⟨hne', (digits_all_iff N').1 hN', post', e'⟩

theorem search_taskId_none_iff (html : JSString) :
    search taskIdRe html = none ↔ ¬ HasTaskId html := by
  unfold taskIdRe HasTaskId TaskIdAt
  rw [search_capture_none_iff taskIdOpen isJSDigit ';' [] (by decide)]
  constructor
  · rintro h ⟨pre, N, hne, hd, post, e⟩
    exact h pre N post hne ((digits_all_iff N).2 hd) e
  · intro h pre N post hne hN e
    exact h ⟨pre, N, hne, (digits_all_iff N).1 hN, post, e⟩

theorem search_taskId_some (html : JSString) (m : List JSString)
    (h : search taskIdRe html = some m) :
    ∃ pre N, m = [N] ∧ TaskIdAt html pre N ∧
      ∀ pre' N', TaskIdAt html pre' N' → pre.length ≤ pre'.length := by
  obtain ⟨pre, N, post, em, hne, hN, e, hmin⟩ :=
    search_capture_some taskIdOpen isJSDigit ';' [] (by decide) html m h
  refine ⟨pre, N, em, ⟨hne, (digits_all_iff N).1 hN, post, e⟩, ?_⟩
  rintro pre' N' ⟨hne', hd', post', e'⟩
  exact hmin pre' N' post' hne' ((digits_all_iff N').2 hd') e'

theorem matchAtoms_backToClient_iff (s : JSString) (m : List JSString) :
    matchAtoms backToClientRe s [] = some m ↔
      ∃ U ws post, m = [U] ∧ U ≠ [] ∧ '"' ∉ U ∧ ws ≠ [] ∧ (∀ c ∈ ws, isJSSpace c = true) ∧
        s = hrefOpen ++ U ++ ['"'] ++ ws ++ backToClientTail ++ post := by
  unfold backToClientRe
  rw [backToClientTail_eq]
  constructor
  · intro h
    obtain ⟨r1, e1, h1⟩ := (matchAtoms_lit_iff _ _ _ _ _).1 h
    obtain ⟨U, r2, hU, hUq, e2, h2⟩ :=
      (matchAtoms_plus_lit_iff notQuote true '"' [] _ _ _ _ (by decide)).1 h1
    obtain ⟨ws, r3, hw, hws, e3, h3⟩ :=
      (matchAtoms_plus_lit_iff isJSSpace false 'c' _ _ _ _ _ (by decide)).1 h2
    simp only [matchAtoms, Option.some.injEq, if_true, if_false, List.nil_append,
      Bool.false_eq_true] at h3
    refine ⟨U, ws, r3, h3.symm, hU, (notQuote_all_iff U).1 hUq, hw, hws, ?_⟩
    rw [e1, e2, e3]
    simp
  · rintro ⟨U, ws, post, rfl, hU, hUq, hw, hws, rfl⟩
    refine (matchAtoms_lit_iff _ _ _ _ _).2 ⟨U ++ ['"'] ++ ws ++
      ('c' :: "lass=\"btn btn-secondary\">Back to Client".toList) ++ post, by simp, ?_⟩
    refine (matchAtoms_plus_lit_iff notQuote true '"' [] _ _ _ _ (by decide)).2
      ⟨U, ws ++ ('c' :: "lass=\"btn btn-secondary\">Back to Client".toList) ++ post, hU,
        (notQuote_all_iff U).2 hUq, by simp, ?_⟩
    refine (matchAtoms_plus_lit_iff isJSSpace false 'c' _ _ _ _ _ (by decide)).2
      ⟨ws, post, hw, hws, by simp, ?_⟩
    simp [matchAtoms]

theorem search_backToClient_none_iff (html : JSString) :
    search backToClientRe html = none ↔ ¬ HasBackToClientLink html := by
  rw [search_eq_none_iff]
  unfold HasBackToClientLink
  constructor
  · rintro h ⟨pre, U, ws, post, hU, hUq, hw, hws, e⟩
    have := h pre (hrefOpen ++ U ++ ['"'] ++ ws ++ backToClientTail ++ post) (by simp [e])
    rw [(matchAtoms_backToClient_iff _ _).2 ⟨U, ws, post, rfl, hU, hUq, hw, hws, rfl⟩] at this
    simp at this
  · intro h pre rest e
    cases hm : matchAtoms backToClientRe rest [] with
    | none => rfl
    | some m =>
      obtain ⟨U, ws, post, _, hU, hUq, hw, hws, e2⟩ := (matchAtoms_backToClient_iff _ _).1 hm
      exact absurd ⟨pre, U, ws, post, hU, hUq, hw, hws, by rw [e, e2]; simp⟩ h

/-! ## The response handler -/

theorem upload_of_noMeta (button : Button) (status : Nat) (html : JSString)
    (flash : List JSString) (setHref : HrefSetter) (h : NoMetaRefresh html) :
    upload button (okResponse status html) flash setHref =
      if includes taskStatusTitle html then
        match search backToClientRe html with
        | some _ =>
          match search taskIdRe html with
          | some t =>
            { button := { innerHTML := spinnerLabel, disabled := true }
              location := some (taskPathPrefix ++ group1 t), alerts := [] }
          | none => flashCheck button.innerHTML flash
        | none => flashCheck button.innerHTML flash
      else flashCheck button.innerHTML flash := by
  simp only [upload, okResponse, handleSettled, startUpload, Bool.not_true, Bool.false_eq_true,
    if_false, handleHtml]
  rw [(search_meta_none_iff html).2 h]
  simp only
  by_cases h1 : includes taskStatusTitle html = true
  · simp only [h1, if_true]
    cases search backToClientRe html with
    | none => rfl
    | some m =>
      simp only
      cases search taskIdRe html <;> rfl
  · simp only [h1]
    rfl

theorem matchAtoms_meta_at (html pre X : JSString) (h : MetaRefreshAt html pre X) :
    matchAtoms metaRefreshRe (html.drop pre.length) [] = some [X] := by
  obtain ⟨hne, hq, post, e⟩ := h
  have hd : html.drop pre.length = metaOpen ++ X ++ ('"' :: ['>']) ++ post := by
    rw [e, metaClose_eq]; simp
  rw [hd]
  unfold metaRefreshRe
  rw [metaClose_eq]
  exact (matchAtoms_capture_iff metaOpen notQuote '"' ['>'] (by decide) _ _).2
    ⟨X, post, rfl, hne, (notQuote_all_iff X).2 hq, rfl⟩

theorem matchAtoms_taskId_at (html pre N : JSString) (h : TaskIdAt html pre N) :
    matchAtoms taskIdRe (html.drop pre.length) [] = some [N] := by
  obtain ⟨hne, hd, post, e⟩ := h
  have hdrop : html.drop pre.length = taskIdOpen ++ N ++ (';' :: []) ++ post := by
    rw [e]; simp
  rw [hdrop]
  unfold taskIdRe
  exact (matchAtoms_capture_iff taskIdOpen isJSDigit ';' [] (by decide) _ _).2
    ⟨N, post, rfl, hne, (digits_all_iff N).2 hd, rfl⟩

/-! ## Claims about the upload response handler -/

/-- C1, as stated, fails: the tag names `http://exa mple.org/x`, non-empty and
free of double quotes, which does not parse as a URL; the setter of line 46
throws, the `.catch` callback enables the button again and shows a message. -/
theorem C1_counterexample :
    MetaRefreshAt badUrlBody "<html><head>".toList "http://exa mple.org/x".toList ∧
    (upload sampleButton (okResponse 200 badUrlBody) [] rejectBadUrl).location = none ∧
    (upload sampleButton (okResponse 200 badUrlBody) [] rejectBadUrl).button = sampleButton ∧
    (upload sampleButton (okResponse 200 badUrlBody) [] rejectBadUrl).alerts =
      ["Ошибка загрузки файла: Failed to set the 'href' property on 'Location': 'http://exa mple.org/x' is not a valid URL.".toList] :=
  ⟨⟨by decide, by decide, badUrlBody.drop 78, rfl⟩, by decide, by decide, by decide⟩

/-- C1, amended. A successfully received body that contains a meta-refresh tag
`<meta http-equiv="refresh" content="0; url=X">`, `X` non-empty and free of
double quotes, makes the handler assign the `X` of the first such tag to
`window.location.href`, whatever else the body and its `.alert` elements hold.
When the browser accepts `X` it navigates to exactly `X` and no message is
shown; when the setter throws because `X` does not parse as a URL, nothing is
navigated to, the button is enabled again with its saved label and the upload
error message with the text of the exception is shown. -/
theorem C1_meta_refresh_navigates (button : Button) (status : Nat) (html pre X : JSString)
    (flash : List JSString) (setHref : HrefSetter)
    (htag : MetaRefreshAt html pre X)
    (hfirst : ∀ pre' X', MetaRefreshAt html pre' X' → pre.length ≤ pre'.length) :
    (setHref X = none →
      upload button (okResponse status html) flash setHref =
        { button := { innerHTML := spinnerLabel, disabled := true }
          location := some X
          alerts := [] }) ∧
    (∀ message, setHref X = some message →
      upload button (okResponse status html) flash setHref =
        { button := { innerHTML := button.innerHTML, disabled := false }
          location := none
          alerts := ["Ошибка загрузки файла: ".toList ++ message] }) := by
  constructor
  · intro hs
    simp [upload, okResponse, handleSettled, startUpload, handleHtml,
      search_meta_first html pre X htag hfirst, group1, hs]
  · intro message hs
    simp [upload, okResponse, handleSettled, startUpload, handleHtml,
      search_meta_first html pre X htag hfirst, group1, hs, handleError, uploadErrorPrefix]

theorem C1_meta_refresh_navigates_witness :
    MetaRefreshAt redirectBody "<html><head>".toList "/client/7".toList ∧
    upload sampleButton (okResponse 200 redirectBody) ["No".toList] rejectBadUrl =
      { button := { innerHTML := spinnerLabel, disabled := true }
        location := some "/client/7".toList
        alerts := [] } :=
  have h : MetaRefreshAt redirectBody "<html><head>".toList "/client/7".toList :=
    ⟨by decide, by decide, redirectBody.drop 66, rfl⟩
  have hnone : ∀ k < 12, matchAtoms metaRefreshRe (redirectBody.drop k) [] = none := by
    decide
  have hfirst : ∀ pre' X', MetaRefreshAt redirectBody pre' X' →
      "<html><head>".toList.length ≤ pre'.length := by
    intro pre' X' h'
    by_contra hlt
    have hm := matchAtoms_meta_at redirectBody pre' X' h'
    rw [hnone pre'.length (by simpa using hlt)] at hm
    exact Option.noConfusion hm
  ⟨h, (C1_meta_refresh_navigates sampleButton 200 redirectBody "<html><head>".toList
    "/client/7".toList ["No".toList] rejectBadUrl h hfirst).1 (by decide)⟩

set_option maxRecDepth 20000 in
/-- C2, as stated, fails: the body has the title, `const taskId = 42;` and a
"Back to Client" link whose `class` attribute precedes its `href`; line 53
does not match it, the handler does not navigate and shows the generic
message. -/
theorem C2_counterexample :
    NoMetaRefresh statusBodyClassFirst ∧ HasTaskStatusTitle statusBodyClassFirst ∧
    classFirstLink <:+: statusBodyClassFirst ∧
    TaskIdAt statusBodyClassFirst (statusBodyClassFirst.take 149) "42".toList ∧
    upload sampleButton (okResponse 200 statusBodyClassFirst) [] acceptAll =
      { button := sampleButton, location := none, alerts := [genericErrorMessage] } :=
  ⟨(search_meta_none_iff _).1 (by decide), (includes_iff _ _).1 (by decide),
    (includes_iff _ _).1 (by decide),
    ⟨by decide, by decide, statusBodyClassFirst.drop 167, rfl⟩, by decide⟩

/-- C2, amended. A body with no meta-refresh tag that has the task-status
title, a "Back to Client" link written as `href="U"`, white space,
`class="btn btn-secondary">Back to Client` (`U` non-empty and free of double
quotes), and an assignment `const taskId = N;` makes the handler navigate to
`/task/N`, `N` being the digits of the first such assignment; the URL of the
link plays no part and no message is shown. -/
theorem C2_task_status_navigates (button : Button) (status : Nat) (html pre N : JSString)
    (flash : List JSString) (setHref : HrefSetter)
    (hmeta : NoMetaRefresh html) (htitle : HasTaskStatusTitle html)
    (hlink : HasBackToClientLink html) (hid : TaskIdAt html pre N)
    (hfirst : ∀ pre' N', TaskIdAt html pre' N' → pre.length ≤ pre'.length) :
    upload button (okResponse status html) flash setHref =
      { button := { innerHTML := spinnerLabel, disabled := true }
        location := some ("/task/".toList ++ N)
        alerts := [] } := by
  have h1 : includes taskStatusTitle html = true := (includes_iff _ _).2 htitle
  have h2 : ∃ m, search backToClientRe html = some m := by
    cases h : search backToClientRe html with
    | none => exact absurd hlink ((search_backToClient_none_iff html).1 h)
    | some m => exact ⟨m, rfl⟩
  obtain ⟨m, h2⟩ := h2
  rw [upload_of_noMeta _ _ _ _ _ hmeta, h1, h2, search_taskId_first html pre N hid hfirst]
  simp [group1, taskPathPrefix]

set_option maxRecDepth 20000 in
theorem C2_task_status_navigates_witness :
    NoMetaRefresh statusBody ∧ HasTaskStatusTitle statusBody ∧ HasBackToClientLink statusBody ∧
    TaskIdAt statusBody (statusBody.take 149) "42".toList ∧
    upload sampleButton (okResponse 200 statusBody) [] acceptAll =
      { button := { innerHTML := spinnerLabel, disabled := true }
        location := some "/task/42".toList
        alerts := [] } :=
  have hmeta : NoMetaRefresh statusBody := (search_meta_none_iff _).1 (by decide)
  have htitle : HasTaskStatusTitle statusBody := (includes_iff _ _).1 (by decide)
  have hlink : HasBackToClientLink statusBody :=
    ⟨statusBody.take 80, "/client/7".toList, [' '], statusBody.drop 137,
      by decide, by decide, by decide, by decide, rfl⟩
  have hid : TaskIdAt statusBody (statusBody.take 149) "42".toList :=
    ⟨by decide, by decide, statusBody.drop 167, rfl⟩
  have hnone : ∀ k < 149, matchAtoms taskIdRe (statusBody.drop k) [] = none := by
    decide
  have hfirst : ∀ pre' N', TaskIdAt statusBody pre' N' →
      (statusBody.take 149).length ≤ pre'.length := by
    intro pre' N' h'
    by_contra hlt
    have hm := matchAtoms_taskId_at statusBody pre' N' h'
    have hl : (statusBody.take 149).length = 149 := by decide
    rw [hnone pre'.length (by omega)] at hm
    exact Option.noConfusion hm
  ⟨hmeta, htitle, hlink, hid,
    C2_task_status_navigates sampleButton 200 statusBody (statusBody.take 149) "42".toList []
      acceptAll hmeta htitle hlink hid hfirst⟩

/-- C3, as stated, fails: the body has the title and `const taskId = 42;` but
no "Back to Client" link; the handler does not navigate and shows the generic
message. -/
theorem C3_counterexample :
    NoMetaRefresh statusBodyNoLink ∧ HasTaskStatusTitle statusBodyNoLink ∧
    HasTaskId statusBodyNoLink ∧
    upload sampleButton (okResponse 200 statusBodyNoLink) [] acceptAll =
      { button := sampleButton, location := none, alerts := [genericErrorMessage] } := by
  refine ⟨(search_meta_none_iff _).1 (by decide), (includes_iff _ _).1 (by decide), ?_, by decide⟩
  obtain ⟨pre, N, _, hid, _⟩ := search_taskId_some statusBodyNoLink ["42".toList] (by decide)
  exact ⟨pre, N, hid⟩

/-- C3, amended. For a body with no meta-refresh tag that carries the
task-status title: when the body also has the "Back to Client" link and the
identifier, the handler navigates to `/task/<id>` for the first assignment
`const taskId = <digits>;`; when the link or the identifier cannot be found,
it falls through to the flash-message check. -/
theorem C3_task_status_needs_link (button : Button) (status : Nat) (html : JSString)
    (flash : List JSString) (setHref : HrefSetter)
    (hmeta : NoMetaRefresh html) (htitle : HasTaskStatusTitle html) :
    (HasBackToClientLink html → HasTaskId html →
      ∃ pre N, TaskIdAt html pre N ∧
        (∀ pre' N', TaskIdAt html pre' N' → pre.length ≤ pre'.length) ∧
        upload button (okResponse status html) flash setHref =
          { button := { innerHTML := spinnerLabel, disabled := true }
            location := some ("/task/".toList ++ N)
            alerts := [] }) ∧
    (¬ (HasBackToClientLink html ∧ HasTaskId html) →
      upload button (okResponse status html) flash setHref =
        flashCheck button.innerHTML flash) := by
  have h1 : includes taskStatusTitle html = true := (includes_iff _ _).2 htitle
  rw [upload_of_noMeta _ _ _ _ _ hmeta, h1]
  simp only [if_true]
  constructor
  · intro hlink hid
    cases h2 : search backToClientRe html with
    | none => exact absurd hlink ((search_backToClient_none_iff html).1 h2)
    | some m =>
      cases h3 : search taskIdRe html with
      | none => exact absurd hid ((search_taskId_none_iff html).1 h3)
      | some t =>
        obtain ⟨pre, N, et, hat, hfirst⟩ := search_taskId_some html t h3
        subst et
        exact ⟨pre, N, hat, hfirst, by simp [group1, taskPathPrefix]⟩
  · intro hno
    cases h2 : search backToClientRe html with
    | none => rfl
    | some m =>
      cases h3 : search taskIdRe html with
      | none => rfl
      | some t =>
        exfalso
        apply hno
        constructor
        · by_contra hl
          rw [(search_backToClient_none_iff html).2 hl] at h2
          simp at h2
        · by_contra hi
          rw [(search_taskId_none_iff html).2 hi] at h3
          simp at h3

theorem C3_task_status_needs_link_witness :
    NoMetaRefresh statusBodyNoLink ∧ HasTaskStatusTitle statusBodyNoLink ∧
    ¬ HasBackToClientLink statusBodyNoLink ∧
    upload sampleButton (okResponse 200 statusBodyNoLink) ["Busy".toList] acceptAll =
      flashCheck "Analyze".toList ["Busy".toList] :=
  have hmeta : NoMetaRefresh statusBodyNoLink := (search_meta_none_iff _).1 (by decide)
  have htitle : HasTaskStatusTitle statusBodyNoLink := (includes_iff _ _).1 (by decide)
  have hlink : ¬ HasBackToClientLink statusBodyNoLink :=
    (search_backToClient_none_iff _).1 (by decide)
  ⟨hmeta, htitle, hlink,
    (C3_task_status_needs_link sampleButton 200 statusBodyNoLink ["Busy".toList] acceptAll
      hmeta htitle).2 (fun h => hlink h.1)⟩

/-! ### `trim` -/

theorem head_dropWhile (p : Char → Bool) (s : JSString) (c : Char)
    (h : (s.dropWhile p).head? = some c) : p c = false := by
  induction s with
  | nil => simp at h
  | cons d ds ih =>
    by_cases hd : p d = true
    · rw [List.dropWhile_cons_of_pos hd] at h; exact ih h
    · rw [List.dropWhile_cons_of_neg hd] at h
      simp at h; subst h; simpa using hd

/-- What `trim` returns: the input without a leading and a trailing run of white
space, and with no white space left at either end. -/
theorem trim_spec (s : JSString) :
    ∃ l r, s = l ++ trim s ++ r ∧ (∀ c ∈ l, isJSSpace c = true) ∧
      (∀ c ∈ r, isJSSpace c = true) ∧
      (∀ c, (trim s).head? = some c → isJSSpace c = false) ∧
      (∀ c, (trim s).getLast? = some c → isJSSpace c = false) := by
  have e1 := List.takeWhile_append_dropWhile isJSSpace s
  have e2 := List.takeWhile_append_dropWhile isJSSpace (s.dropWhile isJSSpace).reverse
  have e3 : s.dropWhile isJSSpace =
      trim s ++ ((s.dropWhile isJSSpace).reverse.takeWhile isJSSpace).reverse := by
    have := congrArg List.reverse e2
    rw [List.reverse_append, List.reverse_reverse] at this
    exact this.symm
  refine ⟨s.takeWhile isJSSpace,
    ((s.dropWhile isJSSpace).reverse.takeWhile isJSSpace).reverse, ?_, ?_, ?_, ?_, ?_⟩
  · rw [List.append_assoc, ← e3, e1]
  · intro c hc; exact List.mem_takeWhile_imp hc
  · intro c hc; exact List.mem_takeWhile_imp (List.mem_reverse.1 hc)
  · intro c hc
    apply head_dropWhile isJSSpace s c
    rw [e3]
    cases ht : trim s with
    | nil => rw [ht] at hc; simp at hc
    | cons d ds => rw [ht] at hc; simpa using hc
  · intro c hc
    apply head_dropWhile isJSSpace (s.dropWhile isJSSpace).reverse c
    rw [← List.getLast?_reverse]
    exact hc

/-! ### Flash messages and failures -/

/-- C4, as stated, fails: the element's text content is " File too large ",
the message shown is "File too large". -/
theorem C4_counterexample :
    NoMetaRefresh flashBody ∧ ¬ HasTaskStatusTitle flashBody ∧
    (upload sampleButton (okResponse 200 flashBody) flashBodyAlerts acceptAll).alerts =
      ["File too large".toList] ∧
    (upload sampleButton (okResponse 200 flashBody) flashBodyAlerts acceptAll).alerts ≠
      [" File too large ".toList] := by
  refine ⟨(search_meta_none_iff _).1 (by decide), ?_, by decide, by decide⟩
  intro h
  have := (includes_iff _ _).2 h
  revert this
  decide

/-- C4, amended. A body that triggers no navigation (no meta-refresh tag, and
not the task-status title together with the link and the identifier) and whose
parse has an element of class `alert` makes the handler show exactly one
message, the text content of the first such element with the white space at
both ends removed; it does not navigate, and the button is enabled again with
the label it had before the upload. -/
theorem C4_flash_message_trimmed (button : Button) (status : Nat) (html first : JSString)
    (others : List JSString) (setHref : HrefSetter)
    (hmeta : NoMetaRefresh html)
    (hno : ¬ (HasTaskStatusTitle html ∧ HasBackToClientLink html ∧ HasTaskId html)) :
    upload button (okResponse status html) (first :: others) setHref =
      { button := { innerHTML := button.innerHTML, disabled := false }
        location := none
        alerts := [trim first] } ∧
    ∃ l r, first = l ++ trim first ++ r ∧ (∀ c ∈ l, isJSSpace c = true) ∧
      (∀ c ∈ r, isJSSpace c = true) ∧
      (∀ c, (trim first).head? = some c → isJSSpace c = false) ∧
      (∀ c, (trim first).getLast? = some c → isJSSpace c = false) := by
  refine ⟨?_, trim_spec first⟩
  rw [upload_of_noMeta _ _ _ _ _ hmeta]
  have hf : flashCheck button.innerHTML (first :: others) =
      { button := { innerHTML := button.innerHTML, disabled := false }
        location := none
        alerts := [trim first] } := rfl
  by_cases h1 : includes taskStatusTitle html = true
  · rw [h1]
    simp only [if_true]
    cases h2 : search backToClientRe html with
    | none => exact hf
    | some m =>
      cases h3 : search taskIdRe html with
      | none => exact hf
      | some t =>
        exfalso
        apply hno
        refine ⟨(includes_iff _ _).1 h1, ?_, ?_⟩
        · by_contra hl
          rw [(search_backToClient_none_iff html).2 hl] at h2
          simp at h2
        · by_contra hi
          rw [(search_taskId_none_iff html).2 hi] at h3
          simp at h3
  · simp only [h1]
    exact hf

theorem C4_flash_message_trimmed_witness :
    NoMetaRefresh flashBody ∧
    ¬ (HasTaskStatusTitle flashBody ∧ HasBackToClientLink flashBody ∧ HasTaskId flashBody) ∧
    upload sampleButton (okResponse 200 flashBody) flashBodyAlerts acceptAll =
      { button := { innerHTML := "Analyze".toList, disabled := false }
        location := none
        alerts := ["File too large".toList] } :=
  have hmeta : NoMetaRefresh flashBody := (search_meta_none_iff _).1 (by decide)
  have hno : ¬ (HasTaskStatusTitle flashBody ∧ HasBackToClientLink flashBody ∧
      HasTaskId flashBody) := by
    rintro ⟨h, _, _⟩
    have := (includes_iff _ _).2 h
    revert this
    decide
  ⟨hmeta, hno,
    (C4_flash_message_trimmed sampleButton 200 flashBody " File too large ".toList [] acceptAll
      hmeta hno).1⟩

/-- C5. When the response of an upload has a non-success status `s`, the
handler neither reads the body nor navigates nor sends a second request: the
button is enabled again with the label saved before the upload, and the one
message shown contains the decimal digits of `s`. -/
theorem C5_http_error_status (f : Form) (files status : Nat) (text : Except JSString JSString)
    (flash : List JSString) (setHref : HrefSetter) (hfiles : 0 < files) (hidle : f.pending = []) :
    step (step f (Event.change files))
        (Event.settle 0 (FetchResult.fulfilled { ok := false, status := status, text := text })
          flash setHref) =
      { button := { innerHTML := f.button.innerHTML, disabled := false }
        pickerOpen := false
        pending := []
        sent := f.sent + 1
        location := f.location
        alerts := f.alerts ++
          ["Ошибка загрузки файла: ".toList ++ "HTTP error! status: ".toList ++
            (Nat.repr status).toList] } ∧
    (Nat.repr status).toList <:+:
      "Ошибка загрузки файла: ".toList ++ "HTTP error! status: ".toList ++
        (Nat.repr status).toList := by
  constructor
  · simp [step, hfiles, hidle, startUpload, handleSettled, handleError, uploadErrorPrefix,
      httpErrorPrefix]
  · exact (List.suffix_append _ _).isInfix

theorem C5_http_error_status_witness :
    step (step (idle "Analyze".toList) (Event.change 1))
        (Event.settle 0
          (FetchResult.fulfilled { ok := false, status := 500, text := Except.ok statusBody })
          [] acceptAll) =
      { button := { innerHTML := "Analyze".toList, disabled := false }
        pickerOpen := false
        pending := []
        sent := 1
        location := none
        alerts := ["Ошибка загрузки файла: HTTP error! status: 500".toList] } :=
  (C5_http_error_status (idle "Analyze".toList) 1 500 (Except.ok statusBody) [] acceptAll
    (by decide) rfl).1

/-! ## The column list -/

theorem split_ne_nil (sep : Char) (s : JSString) : split sep s ≠ [] := by
  induction s with
  | nil => simp [split]
  | cons c cs ih =>
    simp only [split]
    by_cases h : c = sep
    · simp [h]
    · simp only [h, if_false]
      cases hs : split sep cs with
      | nil => simp
      | cons seg segs => simp

theorem split_of_not_mem (sep : Char) (g : JSString) (h : sep ∉ g) : split sep g = [g] := by
  induction g with
  | nil => rfl
  | cons c cs ih =>
    have hc : ¬ c = sep := fun e => h (e ▸ List.mem_cons_self _ _)
    have := ih (fun hm => h (List.mem_cons_of_mem _ hm))
    simp [split, hc, this]

theorem split_append_sep (sep : Char) (g rest : JSString) (h : sep ∉ g) :
    split sep (g ++ sep :: rest) = g :: split sep rest := by
  induction g with
  | nil => simp [split]
  | cons c cs ih =>
    have hc : ¬ c = sep := fun e => h (e ▸ List.mem_cons_self _ _)
    have := ih (fun hm => h (List.mem_cons_of_mem _ hm))
    simp [split, hc, this]

theorem split_joinStrings (sep : Char) (segs : List JSString) (hne : segs ≠ [])
    (h : ∀ g ∈ segs, sep ∉ g) : split sep (joinStrings [sep] segs) = segs := by
  induction segs with
  | nil => exact absurd rfl hne
  | cons g gs ih =>
    cases gs with
    | nil => exact split_of_not_mem sep g (h g (List.mem_cons_self _ _))
    | cons g2 gs2 =>
      have := ih (by simp) (fun x hx => h x (List.mem_cons_of_mem _ hx))
      simp only [joinStrings, List.append_assoc, List.singleton_append]
      rw [split_append_sep sep g _ (h g (List.mem_cons_self _ _)), this]

theorem not_mem_of_mem_split (sep : Char) (s : JSString) :
    ∀ g ∈ split sep s, sep ∉ g := by
  induction s with
  | nil => simp [split]
  | cons c cs ih =>
    intro g hg
    simp only [split] at hg
    by_cases h : c = sep
    · simp only [h, if_true, List.mem_cons] at hg
      rcases hg with rfl | hg
      · simp
      · exact ih g hg
    · simp only [h, if_false] at hg
      cases hs : split sep cs with
      | nil => exact absurd hs (split_ne_nil sep cs)
      | cons seg segs =>
        rw [hs] at hg ih
        simp only [List.mem_cons] at hg
        rcases hg with rfl | hg
        · intro hm
          rcases List.mem_cons.1 hm with e | hm
          · exact h e.symm
          · exact ih seg (List.mem_cons_self _ _) hm
        · exact ih g (List.mem_cons_of_mem _ hg)

theorem joinStrings_cons_cons (sep : JSString) (c : Char) (seg : JSString)
    (segs : List JSString) :
    joinStrings sep ((c :: seg) :: segs) = c :: joinStrings sep (seg :: segs) := by
  cases segs <;> simp [joinStrings]

theorem joinStrings_split (sep : Char) (s : JSString) :
    joinStrings [sep] (split sep s) = s := by
  induction s with
  | nil => rfl
  | cons c cs ih =>
    simp only [split]
    by_cases h : c = sep
    · simp only [h, if_true]
      cases hs : split sep cs with
      | nil => exact absurd hs (split_ne_nil sep cs)
      | cons seg segs =>
        rw [hs] at ih
        simp [joinStrings, ih]
    · simp only [h, if_false]
      cases hs : split sep cs with
      | nil => exact absurd hs (split_ne_nil sep cs)
      | cons seg segs =>
        rw [hs] at ih
        simp only
        rw [joinStrings_cons_cons, ih]

theorem currentColumns_joinStrings (segs : List JSString) (h : ∀ g ∈ segs, '\n' ∉ g) :
    currentColumns (joinStrings ['\n'] segs) = segs.filter (fun seg => !seg.isEmpty) := by
  cases segs with
  | nil => rfl
  | cons g gs =>
    unfold currentColumns
    rw [split_joinStrings '\n' (g :: gs) (by simp) h]

/-- C8. The column list sent by Generate, `s.split('\n').filter(Boolean)`, is
the sequence of the non-empty segments of `s` between line breaks, in order:
however `s` is cut at line breaks into segments, the list is those segments
with the empty ones left out; `s` always has such a cut; no element of the list
is empty or contains a line break; and "a\n\nb\n" gives ["a", "b"]. -/
theorem C8_column_list_splitting (s : JSString) :
    (∀ segs : List JSString, (∀ g ∈ segs, '\n' ∉ g) → joinStrings ['\n'] segs = s →
      currentColumns s = segs.filter (fun seg => !seg.isEmpty)) ∧
    (∃ segs : List JSString, (∀ g ∈ segs, '\n' ∉ g) ∧ joinStrings ['\n'] segs = s) ∧
    (∀ x ∈ currentColumns s, x ≠ [] ∧ '\n' ∉ x) ∧
    currentColumns "a\n\nb\n".toList = ["a".toList, "b".toList] := by
  refine ⟨?_, ⟨split '\n' s, not_mem_of_mem_split '\n' s, joinStrings_split '\n' s⟩, ?_, by decide⟩
  · intro segs h e
    rw [← e]
    exact currentColumns_joinStrings segs h
  · intro x hx
    unfold currentColumns at hx
    rw [List.mem_filter] at hx
    refine ⟨?_, not_mem_of_mem_split '\n' s x hx.1⟩
    intro e
    rw [e] at hx
    simp at hx

theorem C8_column_list_splitting_witness :
    currentColumns "x\n\ny z\n".toList =
      ["x".toList, [], "y z".toList, []].filter (fun seg => !seg.isEmpty) :=
  (C8_column_list_splitting "x\n\ny z\n".toList).1 ["x".toList, [], "y z".toList, []]
    (by decide) (by decide)

theorem itemStrings_map_string (cs : List JSString) :
    itemStrings (cs.map JSValue.string) = cs := by
  induction cs with
  | nil => simp [itemStrings]
  | cons c cs ih => simp [itemStrings, toStr, ih]

theorem filter_nonempty_eq (cs : List JSString) (h : ∀ c ∈ cs, c ≠ []) :
    cs.filter (fun seg => !seg.isEmpty) = cs := by
  rw [List.filter_eq_self]
  intro c hc
  have := h c hc
  cases c with
  | nil => exact absurd rfl this
  | cons _ _ => rfl

/-! ## The Generate handler -/

theorem textareaValue_of_no_cr (s : JSString) (h : '\r' ∉ s) : textareaValue s = s := by
  induction s with
  | nil => rfl
  | cons c cs ih =>
    have hc : ¬ c = '\r' := fun e => h (e ▸ List.mem_cons_self _ _)
    have := ih (fun hm => h (List.mem_cons_of_mem _ hm))
    unfold textareaValue
    simp only [hc, if_false, this]

theorem not_mem_joinStrings (x : Char) (hx : x ≠ '\n') (cs : List JSString)
    (h : ∀ c ∈ cs, x ∉ c) : x ∉ joinStrings ['\n'] cs := by
  induction cs with
  | nil => simp [joinStrings]
  | cons c rest ih =>
    cases rest with
    | nil => simpa [joinStrings] using h c (List.mem_cons_self _ _)
    | cons d ds =>
      have h1 := h c (List.mem_cons_self _ _)
      have h2 := ih (fun y hy => h y (List.mem_cons_of_mem _ hy))
      simp only [joinStrings, List.append_assoc, List.singleton_append, List.mem_append,
        List.mem_cons, not_or]
      exact ⟨h1, hx, h2⟩

theorem generateClick_requests (a : Analyzer) (net : JsonFetch)
    (hdata : truthy a.tableData = true) :
    (Analyzer.generateClick a net).2.requests =
      [Request.generatePrompt (textareaValue a.promptInput)
        (currentColumns (textareaValue a.columnsInput)) a.tableData] := by
  unfold Analyzer.generateClick
  simp only [hdata, Bool.not_true, Bool.false_eq_true, if_false]
  cases net with
  | rejected => rfl
  | fulfilled ok json =>
    cases ok with
    | false => rfl
    | true =>
      cases json with
      | none => rfl
      | some result =>
        simp only [Bool.not_true, Bool.false_eq_true, if_false]
        cases getProp result "prompt".toList with
        | none => rfl
        | some prompt =>
          simp only
          cases getProp result "columns".toList with
          | none => rfl
          | some columns =>
            simp only
            cases callJoin columns ['\n'] <;> rfl

/-- A parsed object whose `columns` is an array is taken as a success, whatever
its `prompt`. -/
theorem generateClick_of_columnsArray (a : Analyzer) (props : List (JSString × JSValue))
    (items : List JSValue) (hdata : truthy a.tableData = true)
    (hc : props.lookup "columns".toList = some (JSValue.array items)) :
    Analyzer.generateClick a (JsonFetch.fulfilled true (some (JSValue.object props))) =
      ({ a with
          promptInput :=
            valueOfAssigned ((props.lookup "prompt".toList).getD JSValue.undefined)
          columnsInput := joinStrings ['\n'] (itemStrings items) },
       { requests :=
           [Request.generatePrompt (textareaValue a.promptInput)
             (currentColumns (textareaValue a.columnsInput)) a.tableData]
         alerts := [] }) := by
  unfold Analyzer.generateClick
  simp only [hdata, Bool.not_true, Bool.false_eq_true, if_false, getProp]
  rw [hc]
  cases props.lookup "prompt".toList <;> simp only [callJoin, Option.getD]

theorem callJoin_of_not_columnsArray (result columns : JSValue)
    (hs : hasColumnsArray result = false)
    (hc : getProp result "columns".toList = some columns) :
    callJoin columns ['\n'] = none := by
  cases result with
  | object props =>
    simp only [getProp] at hc
    simp only [hasColumnsArray] at hs
    cases hl : props.lookup "columns".toList with
    | none =>
      rw [hl] at hc
      simp only [Option.some.injEq] at hc
      subst hc
      rfl
    | some w =>
      rw [hl] at hc hs
      simp only [Option.some.injEq] at hc
      subst hc
      cases w <;> first | rfl | simp at hs
  | undefined => simp [getProp] at hc
  | null => simp [getProp] at hc
  | bool b => simp only [getProp, Option.some.injEq] at hc; subst hc; rfl
  | number n => simp only [getProp, Option.some.injEq] at hc; subst hc; rfl
  | string s => simp only [getProp, Option.some.injEq] at hc; subst hc; rfl
  | array items => simp only [getProp, Option.some.injEq] at hc; subst hc; rfl

/-- C10, as stated, fails: the column name "a", CR, "b" is non-empty and has no
line feed; written to the field by a successful response and read back through
the `value` getter it comes out with the CR turned into a line feed, and the
next press sends the two columns "a" and "b". -/
theorem C10_counterexample :
    (∀ c ∈ ["a\rb".toList], c ≠ [] ∧ '\n' ∉ c) ∧
    truthy sampleSession.tableData = true ∧
    (Analyzer.generateClick sampleSession responseWithCR).2.alerts = [] ∧
    (Analyzer.generateClick sampleSession responseWithCR).1.columnsInput = "a\rb".toList ∧
    (Analyzer.generateClick (Analyzer.generateClick sampleSession responseWithCR).1
        JsonFetch.rejected).2.requests =
      [Request.generatePrompt "p".toList ["a".toList, "b".toList] sampleSession.tableData] ∧
    ["a".toList, "b".toList] ≠ ["a\rb".toList] :=
  ⟨by decide, by decide, by decide, by decide, rfl, by decide⟩

/-- C10, amended. Writing a column list to the columns field and reading it
back is the identity on well-formed lists: when every element of `cs` is
non-empty and has no line feed, splitting `cs.join('\n')` and dropping empty
segments gives `cs`; and when no element holds a carriage return either, a
successful Generate response `{prompt: p, columns: cs}` writes `cs.join('\n')`
to the field without an error, and the next Generate press sends `cs` as
`current_columns` (the field not being edited in between). -/
theorem C10_columns_round_trip (cs : List JSString) (h : ∀ c ∈ cs, c ≠ [] ∧ '\n' ∉ c) :
    currentColumns (joinStrings ['\n'] cs) = cs ∧
    ∀ (a : Analyzer) (props : List (JSString × JSValue)) (p : JSString) (net : JsonFetch),
      (∀ c ∈ cs, '\r' ∉ c) →
      truthy a.tableData = true →
      props.lookup "prompt".toList = some (JSValue.string p) →
      props.lookup "columns".toList = some (JSValue.array (cs.map JSValue.string)) →
      (Analyzer.generateClick a
          (JsonFetch.fulfilled true (some (JSValue.object props)))).2.alerts = [] ∧
      (Analyzer.generateClick a
          (JsonFetch.fulfilled true (some (JSValue.object props)))).1.columnsInput =
        joinStrings ['\n'] cs ∧
      (Analyzer.generateClick
          (Analyzer.generateClick a
            (JsonFetch.fulfilled true (some (JSValue.object props)))).1 net).2.requests =
        [Request.generatePrompt (textareaValue p) cs a.tableData] := by
  have hrt : currentColumns (joinStrings ['\n'] cs) = cs := by
    rw [currentColumns_joinStrings cs (fun c hc => (h c hc).2)]
    exact filter_nonempty_eq cs (fun c hc => (h c hc).1)
  refine ⟨hrt, ?_⟩
  intro a props p net hcr hdata hp hc
  rw [generateClick_of_columnsArray a props _ hdata hc, hp, itemStrings_map_string]
  refine ⟨rfl, rfl, ?_⟩
  have h2 := generateClick_requests
    { a with
      promptInput := valueOfAssigned ((some (JSValue.string p)).getD JSValue.undefined)
      columnsInput := joinStrings ['\n'] cs }
    net hdata
  have hn : textareaValue (joinStrings ['\n'] cs) = joinStrings ['\n'] cs :=
    textareaValue_of_no_cr _ (not_mem_joinStrings '\r' (by decide) cs hcr)
  simp only [hn, hrt] at h2
  exact h2

theorem C10_columns_round_trip_witness :
    (Analyzer.generateClick sampleSession
        (JsonFetch.fulfilled true (some (JSValue.object propsOfExpectedShape)))).1.columnsInput =
      "name\ne mail".toList ∧
    (Analyzer.generateClick
        (Analyzer.generateClick sampleSession
          (JsonFetch.fulfilled true (some (JSValue.object propsOfExpectedShape)))).1
        JsonFetch.rejected).2.requests =
      [Request.generatePrompt (textareaValue "new prompt".toList)
        ["name".toList, "e mail".toList] sampleSession.tableData] :=
  have h := (C10_columns_round_trip ["name".toList, "e mail".toList] (by decide)).2
    sampleSession propsOfExpectedShape "new prompt".toList JsonFetch.rejected
    (by decide) (by decide) rfl rfl
  ⟨h.2.1, h.2.2⟩

/-- C6, as stated, fails twice. With table data present, the response
`{"prompt": "new prompt"}` has no `columns`: the error is shown and the prompt
field has already changed. The response `{"columns": ["c"]}` has no `prompt`:
no error is shown and both fields are overwritten. -/
theorem C6_counterexample :
    truthy sampleSession.tableData = true ∧
    sampleSession.promptInput = "old prompt".toList ∧
    sampleSession.columnsInput = "a\nb".toList ∧
    expectedShape valueWithoutColumns = false ∧
    (Analyzer.generateClick sampleSession responseWithoutColumns).2.alerts =
      ["Failed to generate prompt".toList] ∧
    (Analyzer.generateClick sampleSession responseWithoutColumns).1.promptInput =
      "new prompt".toList ∧
    expectedShape (JSValue.object propsWithoutPrompt) = false ∧
    (Analyzer.generateClick sampleSession responseWithoutPrompt).2.alerts = [] ∧
    (Analyzer.generateClick sampleSession responseWithoutPrompt).1.promptInput =
      "undefined".toList ∧
    (Analyzer.generateClick sampleSession responseWithoutPrompt).1.columnsInput =
      "c".toList := by
  refine ⟨by decide, by decide, by decide, by decide, by decide, by decide, by decide,
    by decide, by decide, by decide⟩

/-- C6, amended. For a Generate press made with table data present: when the
request fails by network failure, non-success status or unparsable body, or the
body parses to `null`, the error "Failed to generate prompt" is shown and the
session (prompt text, column-list text, table data) is unchanged; when the
parsed response has no array `columns`, that error is shown and the column-list
text and the table data are unchanged; the shape of the response is not checked
otherwise: a parsed object whose `columns` is an array is taken as a success
whatever its `prompt`, no error is shown and both fields are overwritten, a
missing prompt giving the text "undefined". -/
theorem C6_generate_failure (a : Analyzer) (net : JsonFetch)
    (hdata : truthy a.tableData = true) :
    ((failsBeforeParse net = true ∨ net = JsonFetch.fulfilled true (some JSValue.null)) →
      (Analyzer.generateClick a net).1 = a ∧
      (Analyzer.generateClick a net).2.alerts = ["Failed to generate prompt".toList]) ∧
    (∀ result, net = JsonFetch.fulfilled true (some result) → hasColumnsArray result = false →
      (Analyzer.generateClick a net).2.alerts = ["Failed to generate prompt".toList] ∧
      (Analyzer.generateClick a net).1.tableData = a.tableData ∧
      (Analyzer.generateClick a net).1.columnsInput = a.columnsInput) ∧
    (∀ props items, net = JsonFetch.fulfilled true (some (JSValue.object props)) →
      props.lookup "columns".toList = some (JSValue.array items) →
      (Analyzer.generateClick a net).2.alerts = [] ∧
      (Analyzer.generateClick a net).1 =
        { a with
          promptInput :=
            valueOfAssigned ((props.lookup "prompt".toList).getD JSValue.undefined)
          columnsInput := joinStrings ['\n'] (itemStrings items) }) := by
  refine ⟨?_, ?_, ?_⟩
  · intro hfail
    unfold Analyzer.generateClick
    simp only [hdata, Bool.not_true, Bool.false_eq_true, if_false]
    cases net with
    | rejected => exact ⟨rfl, rfl⟩
    | fulfilled ok json =>
      cases ok with
      | false => exact ⟨rfl, rfl⟩
      | true =>
        cases json with
        | none => exact ⟨rfl, rfl⟩
        | some result =>
          rcases hfail with h | h
          · simp [failsBeforeParse] at h
          · simp only [JsonFetch.fulfilled.injEq, Option.some.injEq, true_and] at h
            subst h
            exact ⟨rfl, rfl⟩
  · intro result hnet hs
    subst hnet
    unfold Analyzer.generateClick
    simp only [hdata, Bool.not_true, Bool.false_eq_true, if_false]
    cases hp : getProp result "prompt".toList with
    | none => exact ⟨rfl, rfl, rfl⟩
    | some prompt =>
      simp only
      cases hc : getProp result "columns".toList with
      | none => exact ⟨rfl, rfl, rfl⟩
      | some columns =>
        simp only
        rw [callJoin_of_not_columnsArray result columns hs hc]
        exact ⟨rfl, rfl, rfl⟩
  · intro props items hnet hc
    subst hnet
    rw [generateClick_of_columnsArray a props items hdata hc]
    exact ⟨rfl, rfl⟩

theorem C6_generate_failure_witness :
    ((Analyzer.generateClick sampleSession (JsonFetch.fulfilled false none)).1 = sampleSession ∧
     (Analyzer.generateClick sampleSession (JsonFetch.fulfilled false none)).2.alerts =
       ["Failed to generate prompt".toList]) ∧
    ((Analyzer.generateClick sampleSession responseWithoutColumns).2.alerts =
       ["Failed to generate prompt".toList] ∧
     (Analyzer.generateClick sampleSession responseWithoutColumns).1.tableData =
       sampleSession.tableData ∧
     (Analyzer.generateClick sampleSession responseWithoutColumns).1.columnsInput =
       "a\nb".toList) ∧
    ((Analyzer.generateClick sampleSession responseWithoutPrompt).2.alerts = [] ∧
     (Analyzer.generateClick sampleSession responseWithoutPrompt).1 =
       { sampleSession with promptInput := "undefined".toList, columnsInput := "c".toList }) :=
  ⟨(C6_generate_failure sampleSession (JsonFetch.fulfilled false none) (by decide)).1
      (Or.inl (by decide)),
    (C6_generate_failure sampleSession responseWithoutColumns (by decide)).2.1
      valueWithoutColumns rfl (by decide),
    (C6_generate_failure sampleSession responseWithoutPrompt (by decide)).2.2
      propsWithoutPrompt [JSValue.string "c".toList] rfl rfl⟩

theorem generateClick_of_null (a : Analyzer) (net : JsonFetch)
    (h : a.tableData = JSValue.null) :
    Analyzer.generateClick a net =
      (a, { requests := [], alerts := ["Please upload data first".toList] }) := by
  unfold Analyzer.generateClick
  simp [h, truthy]

theorem step_tableData_null (a : Analyzer) (e : Analyzer.Event)
    (h : a.tableData = JSValue.null) (he : e.uploadSucceeded = false) :
    (Analyzer.step a e).tableData = JSValue.null := by
  cases e with
  | fileChange file net =>
    simp only [Analyzer.step, Analyzer.fileUploadChange]
    cases file with
    | false => simpa using h
    | true =>
      cases net with
      | rejected => simpa using h
      | fulfilled ok json =>
        cases ok with
        | false => simpa using h
        | true =>
          cases json with
          | none => simpa using h
          | some data => simp [Analyzer.Event.uploadSucceeded] at he
  | generate net =>
    simp only [Analyzer.step]
    rw [generateClick_of_null a net h]
    exact h
  | editPrompt text => exact h
  | editColumns text => exact h

theorem run_tableData_null (events : List Analyzer.Event) :
    ∀ a : Analyzer, a.tableData = JSValue.null →
      (∀ e ∈ events, e.uploadSucceeded = false) →
      (Analyzer.run a events).tableData = JSValue.null := by
  induction events with
  | nil => intro a h _; exact h
  | cons e es ih =>
    intro a h he
    exact ih (Analyzer.step a e)
      (step_tableData_null a e h (he e (List.mem_cons_self _ _)))
      (fun x hx => he x (List.mem_cons_of_mem _ hx))

/-- C7. In every state reached from the initial session by events none of which
is a successful upload (failed uploads, Generate presses and edits of the
fields included), a press of Generate sends no request, shows "Please upload
data first" and leaves the session as it was. -/
theorem C7_generate_without_upload (prompt columns : JSString)
    (generateBtnDisabled analyzeBtnDisabled : Bool) (events : List Analyzer.Event) (net : JsonFetch)
    (hno : ∀ e ∈ events, e.uploadSucceeded = false) :
    Analyzer.generateClick
        (Analyzer.run (Analyzer.initial prompt columns generateBtnDisabled analyzeBtnDisabled) events)
        net =
      (Analyzer.run (Analyzer.initial prompt columns generateBtnDisabled analyzeBtnDisabled) events,
       { requests := [], alerts := ["Please upload data first".toList] }) :=
  generateClick_of_null _ net (run_tableData_null events _ rfl hno)

theorem C7_generate_without_upload_witness :
    (Analyzer.generateClick
        (Analyzer.run (Analyzer.initial "p".toList "a\nb".toList true true)
          [Analyzer.Event.fileChange true (JsonFetch.fulfilled false none),
           Analyzer.Event.generate responseWithoutColumns,
           Analyzer.Event.editPrompt "q".toList,
           Analyzer.Event.fileChange true JsonFetch.rejected])
        responseWithoutColumns).2.alerts = ["Please upload data first".toList] ∧
    (Analyzer.generateClick
        (Analyzer.run (Analyzer.initial "p".toList "a\nb".toList true true)
          [Analyzer.Event.fileChange true (JsonFetch.fulfilled false none),
           Analyzer.Event.generate responseWithoutColumns,
           Analyzer.Event.editPrompt "q".toList,
           Analyzer.Event.fileChange true JsonFetch.rejected])
        responseWithoutColumns).2.requests.length = 0 := by
  have h := C7_generate_without_upload "p".toList "a\nb".toList true true
    [Analyzer.Event.fileChange true (JsonFetch.fulfilled false none),
     Analyzer.Event.generate responseWithoutColumns,
     Analyzer.Event.editPrompt "q".toList,
     Analyzer.Event.fileChange true JsonFetch.rejected]
    responseWithoutColumns (by decide)
  rw [h]
  exact ⟨rfl, rfl⟩

/-! ## One request in flight -/

/-- C9, as stated, fails: a second file selection reaching the input while the
first upload is pending sends a second request; and once the first response is
handled as a failure the button is enabled although one request is pending. -/
theorem C9_counterexample :
    (run (idle "Analyze".toList) [Event.click, Event.change 1, Event.change 1]).pending.length
      = 2 ∧
    (run (idle "Analyze".toList) [Event.click, Event.change 1, Event.change 1]).sent = 2 ∧
    (run (idle "Analyze".toList)
      [Event.click, Event.change 1, Event.change 1,
       Event.settle 0 (FetchResult.rejected "Failed to fetch".toList) [] acceptAll]).pending.length = 1 ∧
    (run (idle "Analyze".toList)
      [Event.click, Event.change 1, Event.change 1,
       Event.settle 0 (FetchResult.rejected "Failed to fetch".toList) [] acceptAll]).button.disabled
      = false := by
  refine ⟨by decide, by decide, by decide, by decide⟩

theorem single_flight_step (f : Form) (e : Event)
    (hinv : f.pending = [] ∨
      (f.pending.length = 1 ∧ f.button.disabled = true ∧ f.pickerOpen = false))
    (hadm : viaPicker f [e] = true) :
    (step f e).pending = [] ∨
      ((step f e).pending.length = 1 ∧ (step f e).button.disabled = true ∧
        (step f e).pickerOpen = false) := by
  cases e with
  | click =>
    simp only [step]
    by_cases hd : f.button.disabled = true
    · simpa [hd] using hinv
    · rcases hinv with h | h
      · left; simp [hd, h]
      · exact absurd h.2.1 hd
  | change files =>
    have hp : f.pickerOpen = true := by
      simp only [viaPicker, Bool.and_eq_true] at hadm
      exact hadm.1
    have he : f.pending = [] := by
      rcases hinv with h | h
      · exact h
      · rw [h.2.2] at hp; simp at hp
    simp only [step]
    by_cases hf : files > 0
    · right; simp [hf, he, startUpload]
    · left; simp [hf, he]
  | settle i result flash setHref =>
    simp only [step]
    cases hg : f.pending.get? i with
    | none => simpa using hinv
    | some originalText =>
      left
      rcases hinv with h | h
      · rw [h] at hg; simp at hg
      · simp only
        cases hl : f.pending with
        | nil => simp [hl] at h
        | cons o os =>
          cases os with
          | nil =>
            cases i with
            | zero => rfl
            | succ j => rw [hl] at hg; simp at hg
          | cons o2 os2 => simp [hl] at h

theorem single_flight_run (events : List Event) :
    ∀ f : Form,
      (f.pending = [] ∨
        (f.pending.length = 1 ∧ f.button.disabled = true ∧ f.pickerOpen = false)) →
      viaPicker f events = true →
      ((run f events).pending = [] ∨
        ((run f events).pending.length = 1 ∧ (run f events).button.disabled = true ∧
          (run f events).pickerOpen = false)) := by
  induction events with
  | nil => intro f h _; exact h
  | cons e es ih =>
    intro f h hadm
    have h1 : viaPicker f [e] = true ∧ viaPicker (step f e) es = true := by
      cases e <;> simp_all [viaPicker]
    exact ih (step f e) (single_flight_step f e h h1.1) h1.2

/-- C9, amended. For every sequence of clicks, file selections and settled
requests in which each file selection is made in the picker that a click on the
enabled button opened, at most one upload request of the form is in flight, and
while one is in flight the button is disabled. The change handler itself does
not look at pending requests. -/
theorem C9_single_flight_via_button (label : JSString) (events : List Event)
    (hadm : viaPicker (idle label) events = true) :
    (run (idle label) events).pending.length ≤ 1 ∧
    ((run (idle label) events).pending ≠ [] →
      (run (idle label) events).button.disabled = true) := by
  rcases single_flight_run events (idle label) (Or.inl rfl) hadm with h | h
  · rw [h]; simp
  · exact ⟨by omega, fun _ => h.2.1⟩

theorem C9_single_flight_via_button_witness :
    (run (idle "Analyze".toList)
      [Event.click, Event.change 1, Event.click,
       Event.settle 0 (FetchResult.rejected "Failed to fetch".toList) [] acceptAll,
       Event.click, Event.change 1]).pending.length ≤ 1 :=
  (C9_single_flight_via_button "Analyze".toList
    [Event.click, Event.change 1, Event.click,
     Event.settle 0 (FetchResult.rejected "Failed to fetch".toList) [] acceptAll,
     Event.click, Event.change 1] (by decide)).1

end Karhuno
